import Mathlib

/-!
# dotmesh: mastership hand-off and the content I/O sub-states of the filesystem state machine

A shallow embedding of

* the master store used by `TestUpdateMasterA` / `TestUpdateMasterB`
  (`pkg/fsm/fsm_handoff_test.go`),
* `saveFile`, `readFile` and `readDirectory` of `pkg/fsm/fsm_active_file_io.go`,
* the observer of `pkg/observer/observer.go`,
* the retry loop `ExternalManager.call` of `pkg/user/external.go`,
* the context accessors of `pkg/auth/auth_ctx.go`,
* `EtcdKV.Get` of `pkg/kv/kv.go`, and
* `newContainerMountSymlink` of `cmd/dotmesh-server/docker.go`.

Go strings are Lean `String`s; an `error` value is represented by its message.
-/

namespace Dotmesh

/-! ## Master store -/

/-- The record `types.FilesystemMaster`, with the two fields the hand-off test sets. -/
structure FilesystemMaster where
  FilesystemID : String
  NodeID : String
deriving DecidableEq, Repr

/-- Results of the store other than success. -/
inductive StoreError where
  | NotFound
  | Conflict
deriving DecidableEq, Repr

/-- Modelled from the spec: the KV-backed filesystem store (`store.NewKVDBFilesystemStore`) is
absent from the sources. Section 3 of the specification says the store holds at most one
`FilesystemMaster` record per filesystem id, so a store is a partial map from ids to records. -/
structure KVDBFilesystemStore where
  masters : String → Option FilesystemMaster

/-- Modelled from the spec: the freshly created in-memory store (`store.KVTypeMem`) of the
tests, which holds no record. -/
def NewKVDBFilesystemStore : KVDBFilesystemStore :=
  ⟨fun _ => none⟩

/-- Modelled from the spec: `GetMaster(id) → FilesystemMaster | NotFound`, reading the current
owner. The implementation is absent from the sources. -/
def GetMaster (s : KVDBFilesystemStore) (id : String) : Except StoreError FilesystemMaster :=
  match s.masters id with
  | some fm => .ok fm
  | none => .error .NotFound

/-- Modelled from the spec: `SetMaster(record, options)`, the unconditional create/overwrite
used for the initial assignment (the tests pass empty options). The implementation is absent
from the sources. -/
def SetMaster (s : KVDBFilesystemStore) (fm : FilesystemMaster) :
    Except StoreError Unit × KVDBFilesystemStore :=
  (.ok (), ⟨fun id => if id = fm.FilesystemID then some fm else s.masters id⟩)

/-- Modelled from the spec: `UpdateMasterIfMatches(id, newNodeID, expectedOldNodeID) →
ok | Conflict | NotFound`, the compare-and-swap under hand-off; the function
`updateTargetMasterIfMatches` called by the tests is absent from the sources. It succeeds only
if the NodeID stored for `id` equals `expectedOldNodeID`, and otherwise fails without effect. -/
def updateTargetMasterIfMatches (s : KVDBFilesystemStore) (id newNodeID expectedOldNodeID : String) :
    Except StoreError Unit × KVDBFilesystemStore :=
  match s.masters id with
  | none => (.error .NotFound, s)
  | some fm =>
    if fm.NodeID = expectedOldNodeID then
      (.ok (), ⟨fun k => if k = id then some { fm with NodeID := newNodeID } else s.masters k⟩)
    else
      (.error .Conflict, s)

/-- The store of `TestUpdateMasterA` after its `SetMaster` call. -/
def storeTestA : KVDBFilesystemStore :=
  (SetMaster NewKVDBFilesystemStore ⟨"fs-id", "1"⟩).2

/-- The store of `TestUpdateMasterB` after its `SetMaster` call. -/
def storeTestB : KVDBFilesystemStore :=
  (SetMaster NewKVDBFilesystemStore ⟨"fs-id", "3"⟩).2

/-- The NodeID read back by `GetMaster`, when there is a record. -/
def ownerOf (s : KVDBFilesystemStore) (id : String) : Option String :=
  match GetMaster s id with
  | .ok fm => some fm.NodeID
  | .error _ => none

/-! ## Paths

Go strings are byte sequences; the separator '/' is a single byte that never occurs inside a
multi-byte character, so splitting and slicing at '/' agree on bytes and on characters. -/

/-- Scan for `strings.LastIndex`: `i` is the index of the next character, `best` the index of
the last separator seen so far. -/
def lastIndexAux (c : Char) : List Char → Nat → Int → Int
  | [], _, best => best
  | x :: xs, i, best => lastIndexAux c xs (i + 1) (if x = c then (i : Int) else best)

/-- Go `strings.LastIndex(s, sep)` for a one-character separator: the index of the last
occurrence, or -1. -/
def LastIndex (s : String) (c : Char) : Int :=
  lastIndexAux c s.toList 0 (-1)

/-- The Go slice expression `s[:i]`. -/
def sliceTo (s : String) (i : Int) : String :=
  String.mk (s.toList.take i.toNat)

/-- The elements of a path between its '/' separators (as `strings.Split(p, "/")`). -/
def splitSlash : List Char → List (List Char)
  | [] => [[]]
  | c :: cs =>
    if c = '/' then [] :: splitSlash cs
    else
      match splitSlash cs with
      | [] => [[c]]
      | s :: ss => (c :: s) :: ss

/-- Whether a path starts with the separator. -/
def isRooted (p : List Char) : Bool :=
  match p with
  | c :: _ => c == '/'
  | [] => false

/-- One iteration of the loop of Go `filepath.Clean`, on the stack of elements written so far
(last element first): an empty element and `.` are dropped, `..` removes the last element when
there is one to backtrack over, is kept on a relative path and dropped at the root, and any
other element is appended. -/
def cleanStep (rooted : Bool) (stk : List (List Char)) (seg : List Char) : List (List Char) :=
  if seg = [] ∨ seg = ['.'] then stk
  else if seg = ['.', '.'] then
    match stk with
    | [] => if rooted then [] else [['.', '.']]
    | top :: rest => if top = ['.', '.'] then ['.', '.'] :: stk else rest
  else seg :: stk

/-- The elements of the lexically normalised path, first element first. -/
def cleanSegs (rooted : Bool) (segs : List (List Char)) : List (List Char) :=
  (segs.foldl (cleanStep rooted) []).reverse

/-- The lexical normal form of a path: whether it is rooted, and its elements. -/
def normalForm (p : String) : Bool × List (List Char) :=
  (isRooted p.toList, cleanSegs (isRooted p.toList) (splitSlash p.toList))

/-- Elements joined by the separator. -/
def joinSlash : List (List Char) → List Char
  | [] => []
  | [s] => s
  | s :: t :: ts => s ++ '/' :: joinSlash (t :: ts)

/-- The path written for a normal form: Go `filepath.Clean` returns "/" followed by the
elements on a rooted path, and "." for a relative path without elements. -/
def renderPath (nf : Bool × List (List Char)) : String :=
  if nf.1 then String.mk ('/' :: joinSlash nf.2)
  else if nf.2 = [] then "." else String.mk (joinSlash nf.2)

/-- Go `filepath.Clean` (Unix): the shortest path equivalent to `path` by lexical processing. -/
def Clean (path : String) : String :=
  renderPath (normalForm path)

/-- Go `strings.Join(elems, "/")`. -/
def stringsJoin : List String → String
  | [] => ""
  | [s] => s
  | s :: t :: ts => s ++ "/" ++ stringsJoin (t :: ts)

/-- Go `filepath.Join` (Unix): leading empty elements are ignored, the rest is joined with the
separator and cleaned; the result is empty when every element is empty. -/
def Join : List String → String
  | [] => ""
  | e :: es => if e = "" then Join es else Clean (stringsJoin (e :: es))

/-- Whether the lexically normalised `p` lies in the subtree of the lexically normalised
`root`: both are rooted or both relative, and the elements of `root` are the first elements
of `p`. -/
def insideSubtree (root p : String) : Bool :=
  (normalForm root).1 == (normalForm p).1 && (normalForm root).2.isPrefixOf (normalForm p).2

/-! ## Events and states -/

/-- Modelled from the spec: the `types` package is absent from the sources. Section 3 gives an
event name as an enum and section 6 lists the five names used by the content I/O sub-states;
`lit` is a name the source writes as a string literal ("snapshot", "snapshotted"). -/
inductive EventName where
  | EventNameSaveFailed
  | EventNameSaveSuccess
  | EventNameReadFailed
  | EventNameReadSuccess
  | EventNameFileNotFound
  | lit (s : String)
deriving DecidableEq, Repr

/-- The values the content I/O sub-states store in `types.EventArgs` (a Go
`map[string]interface` value): an `error`, a string, or the snapshot metadata map. -/
inductive ArgValue where
  | error (msg : String)
  | string (s : String)
  | metadata (m : List (String × String))
deriving DecidableEq, Repr

/-- Modelled from the spec: `types.Event` as in section 3, a name and a mapping from strings
to values. The reply channel is not a field here: what is sent on `file.Response` is the
`replies` list of a result. -/
structure Event where
  Name : EventName
  Args : List (String × ArgValue)
deriving DecidableEq, Repr

/-- Modelled from the spec: `types.NewErrorEvent(name, err)` is absent from the sources; the
directory read replies "analogously" to the file read, with the error under the key "err". -/
def NewErrorEvent (name : EventName) (err : String) : Event :=
  ⟨name, [("err", .error err)]⟩

/-- The event behind the `*types.Event` pointer that `f.snapshot` hands back. The events the
functions of this file build themselves always carry `Args` (`Args: &types.EventArgs`), which
is why `Event.Args` is a plain mapping; a received event is only known to have the pointer
field `Args`, which is `none` when that pointer is nil. -/
structure ResponseEvent where
  Name : EventName
  Args : Option (List (String × ArgValue))
deriving DecidableEq, Repr

/-- The two next states the content I/O sub-states return. -/
inductive StateFn where
  | activeState
  | backoffState
deriving DecidableEq, Repr

/-- The descriptor `types.InputFile` of a save request: `Contents` is the data its reader
yields. -/
structure InputFile where
  Filename : String
  Contents : List UInt8
  User : String

/-- The descriptor `types.OutputFile` of a read request: `Contents` is what has been written to
its writer so far. -/
structure OutputFile where
  Filename : String
  SnapshotMountPath : String
  Contents : List UInt8

/-- Outcome of `os.Stat` as the code inspects it: an error for which `os.IsNotExist` holds,
another error, or file information with `IsDir()` true or false. -/
inductive StatResult where
  | notExist (err : String)
  | failed (err : String)
  | isDir
  | isFile
deriving DecidableEq, Repr

/-- Outcome of an `io.Copy`: everything was copied, or an error after `written` bytes. -/
inductive CopyResult where
  | ok
  | failed (written : Nat) (err : String)
deriving DecidableEq, Repr

/-- Go `io.Copy(dst, src)`: the destination afterwards, the number of bytes copied, and the
error if any. -/
def ioCopy (dst src : List UInt8) : CopyResult → List UInt8 × Nat × Option String
  | .ok => (dst ++ src, src.length, none)
  | .failed k e => (dst ++ src.take k, min k src.length, some e)

/-- What the three functions call outside their own file: helpers of this repository that are
absent from the sources (`utils.Mnt`, `formatBytes`, the `snapshot` transition, the tar
archiver), taken as parameters, and the outcomes of the operating system calls. An error is
`none` for Go `nil`. The response of `snapshot` is a pointer: `none` for a nil pointer. -/
structure World where
  Mnt : String → String
  formatBytes : Nat → String
  snapshot : Event → Option ResponseEvent
  MkdirAll : String → Option String
  Create : String → Option String
  Stat : String → StatResult
  Open : String → Except String (List UInt8)
  Copy : CopyResult
  ArchiveToStream : String → List UInt8 × Option String

/-- The part of `FsMachine` the three functions read. -/
structure FsMachine where
  filesystemId : String

/-- What a call of `saveFile` did: the next state it returned, or `none` when a run-time panic
ended the call before it returned; the message of that panic; the events it sent on
`file.Response` in order; the events it passed to `f.snapshot` in order; and the file it
created with the bytes copied into it. -/
structure SaveResult where
  next : Option StateFn
  panic : Option String
  replies : List Event
  snapshots : List Event
  wrote : Option (String × List UInt8)
deriving DecidableEq, Repr

/-- What a call of `readFile` or `readDirectory` did: the next state it returned, the events
it sent on `file.Response` in order, and the caller-supplied output stream afterwards. -/
structure ReadResult where
  next : StateFn
  replies : List Event
  Contents : List UInt8
deriving DecidableEq, Repr

/-! ## The content I/O sub-states -/

/-- The event `saveFile` passes to the snapshot transition after copying `bytes` bytes. -/
def snapshotEvent (w : World) (file : InputFile) (bytes : Nat) : Event :=
  ⟨.lit "snapshot",
    [("metadata", .metadata
      [("message", "Uploaded " ++ file.Filename ++ " (" ++ w.formatBytes bytes ++ ")"),
       ("author", file.User),
       ("type", "upload"),
       ("upload.type", "S3"),
       ("upload.file", file.Filename),
       ("upload.bytes", toString bytes)])]⟩

/-- The path `saveFile` writes to: `fmt.Sprintf("%s/%s/%s", utils.Mnt(id), "__default__", name)`. -/
def destPath (w : World) (f : FsMachine) (file : InputFile) : String :=
  w.Mnt f.filesystemId ++ "/" ++ "__default__" ++ "/" ++ file.Filename

/-- The path `readFile` reads from:
`fmt.Sprintf("%s/%s/%s", file.SnapshotMountPath, "__default__", file.Filename)`. -/
def sourcePath (file : OutputFile) : String :=
  file.SnapshotMountPath ++ "/" ++ "__default__" ++ "/" ++ file.Filename

/-- The path `readDirectory` reads from:
`filepath.Join(file.SnapshotMountPath, "__default__", file.Filename)`. -/
def dirPath (file : OutputFile) : String :=
  Join [file.SnapshotMountPath, "__default__", file.Filename]

/-- `FsMachine.saveFile`: create the directory of the destination, create the file, copy the
contents into it, snapshot, reply. After the snapshot step the code reads `response.Name`,
and for a response not named "snapshotted" it formats `*(response.Args)` for the log before it
sends the reply: a nil `response`, or a nil `response.Args` on that path, is a nil pointer
dereference, which ends the call with no reply sent. -/
def saveFile (w : World) (f : FsMachine) (file : InputFile) : SaveResult :=
  let destPath := destPath w f file
  let directoryPath := sliceTo destPath (LastIndex destPath '/')
  match w.MkdirAll directoryPath with
  | some err =>
    let e : Event :=
      ⟨.EventNameSaveFailed, [("err", .error ("failed to create directory, error: " ++ err))]⟩
    { next := some .backoffState, panic := none, replies := [e], snapshots := [],
      wrote := none }
  | none =>
    match w.Create destPath with
    | some err =>
      let e : Event :=
        ⟨.EventNameSaveFailed, [("err", .error ("failed to create file, error: " ++ err))]⟩
      { next := some .backoffState, panic := none, replies := [e], snapshots := [],
        wrote := none }
    | none =>
      match ioCopy [] file.Contents w.Copy with
      | (out, _, some err) =>
        let e : Event :=
          ⟨.EventNameSaveFailed, [("err", .error ("cannot to create a file, error: " ++ err))]⟩
        { next := some .backoffState, panic := none, replies := [e], snapshots := [],
          wrote := some (destPath, out) }
      | (out, bytes, none) =>
        let request := snapshotEvent w file bytes
        match w.snapshot request with
        | none =>
          { next := none, panic := some "invalid memory address or nil pointer dereference",
            replies := [], snapshots := [request], wrote := some (destPath, out) }
        | some response =>
          if response.Name ≠ .lit "snapshotted" then
            let e : Event := ⟨.EventNameSaveFailed, [("err", .string "file snapshot failed")]⟩
            match response.Args with
            | none =>
              { next := none, panic := some "invalid memory address or nil pointer dereference",
                replies := [], snapshots := [request], wrote := some (destPath, out) }
            | some _ =>
              { next := some .backoffState, panic := none, replies := [e],
                snapshots := [request], wrote := some (destPath, out) }
          else
            { next := some .activeState, panic := none,
              replies := [⟨.EventNameSaveSuccess, []⟩],
              snapshots := [request], wrote := some (destPath, out) }

/-- `FsMachine.readDirectory`: stat the joined path, archive the directory to the output
stream, reply. -/
def readDirectory (w : World) (file : OutputFile) : ReadResult :=
  let dirPath := dirPath file
  match w.Stat dirPath with
  | .notExist err =>
    { next := .backoffState,
      replies := [NewErrorEvent .EventNameFileNotFound
        ("failed to stat dir \x27" ++ file.Filename ++ "\x27, error: " ++ err ++ " ")],
      Contents := file.Contents }
  | .failed err =>
    { next := .backoffState,
      replies := [NewErrorEvent .EventNameReadFailed
        ("failed to stat dir \x27" ++ file.Filename ++ "\x27, error: " ++ err ++ " ")],
      Contents := file.Contents }
  | .isFile =>
    { next := .backoffState,
      replies := [NewErrorEvent .EventNameReadFailed
        ("path \x27" ++ file.Filename ++ "\x27 is not a directory, error: %!s(<nil>) ")],
      Contents := file.Contents }
  | .isDir =>
    match w.ArchiveToStream dirPath with
    | (tar, some err) =>
      { next := .backoffState,
        replies := [NewErrorEvent .EventNameReadFailed
          ("path \x27" ++ file.Filename ++ "\x27 tar failed, error: " ++ err ++ " ")],
        Contents := file.Contents ++ tar }
    | (tar, none) =>
      { next := .activeState, replies := [⟨.EventNameReadSuccess, []⟩],
        Contents := file.Contents ++ tar }

/-- `FsMachine.readFile`: stat the source path, hand a directory over to `readDirectory`,
otherwise open the file and copy it to the output stream, reply. -/
def readFile (w : World) (file : OutputFile) : ReadResult :=
  let sourcePath := sourcePath file
  match w.Stat sourcePath with
  | .notExist err =>
    { next := .backoffState,
      replies := [⟨.EventNameFileNotFound,
        [("err", .error ("failed to stat " ++ file.Filename ++ ", error: " ++ err))]⟩],
      Contents := file.Contents }
  | .failed err =>
    { next := .backoffState,
      replies := [⟨.EventNameReadFailed,
        [("err", .error ("failed to stat " ++ file.Filename ++ ", error: " ++ err))]⟩],
      Contents := file.Contents }
  | .isDir => readDirectory w file
  | .isFile =>
    match w.Open sourcePath with
    | .error err =>
      { next := .backoffState,
        replies := [⟨.EventNameReadFailed,
          [("err", .error ("failed to read file, error: " ++ err))]⟩],
        Contents := file.Contents }
    | .ok fileOnDisk =>
      match ioCopy file.Contents fileOnDisk w.Copy with
      | (out, _, some err) =>
        { next := .backoffState,
          replies := [⟨.EventNameReadFailed,
            [("err", .error ("cannot stream file, error: " ++ err))]⟩],
          Contents := out }
      | (out, _, none) =>
        { next := .activeState, replies := [⟨.EventNameReadSuccess, []⟩], Contents := out }

/-! ## Example worlds -/

/-- A world in which every step succeeds: each stat finds a regular file holding "hi". -/
def worldAllOk : World where
  Mnt := fun id => "/var/lib/dotmesh/mnt/dmfs/" ++ id
  formatBytes := fun n => toString n ++ " B"
  snapshot := fun _ => some ⟨.lit "snapshotted", some [("SnapshotId", .string "snap-1")]⟩
  MkdirAll := fun _ => none
  Create := fun _ => none
  Stat := fun _ => .isFile
  Open := fun _ => .ok [104, 105]
  Copy := .ok
  ArchiveToStream := fun _ => ([], none)

/-- A world in which the disk fills up after one byte of a copy. -/
def worldCopyFails : World :=
  { worldAllOk with Copy := .failed 1 "no space left on device" }

/-- A world in which the snapshot step fails and says why. -/
def worldSnapshotFails : World :=
  { worldAllOk with
    snapshot := fun _ =>
      some ⟨.lit "failed-snapshot", some [("err", .error "cannot create snapshot")]⟩ }

/-- A world in which the snapshot step fails with a response that carries no `Args`. -/
def worldSnapshotNoArgs : World :=
  { worldAllOk with snapshot := fun _ => some ⟨.lit "failed-snapshot", none⟩ }

/-- A world in which the snapshot step hands back a nil response. -/
def worldSnapshotNil : World :=
  { worldAllOk with snapshot := fun _ => none }

/-- Whether `saveFile` can log and reply to a snapshot response: it is not nil, and it is
named "snapshotted" or carries `Args`. -/
def usableResponse : Option ResponseEvent → Bool
  | none => false
  | some r => r.Name == .lit "snapshotted" || r.Args.isSome

/-- A world in which no path exists. -/
def worldNothingExists : World :=
  { worldAllOk with Stat := fun _ => .notExist "no such file or directory" }

/-- A world in which `/snap/__default__/link` is a symbolic link to a directory elsewhere whose
parent holds a directory `d`, while `/snap/__default__/d` does not exist: the operating system
resolves `link/../d` through the link, the lexically cleaned path does not. -/
def worldSymlink : World :=
  { worldAllOk with
    Stat := fun p =>
      if p = "/snap/__default__/link/../d" then .isDir
      else .notExist "no such file or directory" }

/-- A save request of two bytes. -/
def uploadHi : InputFile :=
  { Filename := "notes/hi.txt", Contents := [104, 105], User := "alice" }

/-- A read request for a plain file name, with one byte already on the output stream. -/
def readHi : OutputFile :=
  { Filename := "notes/hi.txt", SnapshotMountPath := "/snap", Contents := [62] }

/-- A read request whose file name passes through a symbolic link and back up. -/
def readViaLink : OutputFile :=
  { Filename := "link/../d", SnapshotMountPath := "/snap", Contents := [] }

/-- The metadata map an event carries under the key "metadata". -/
def metadataOf (e : Event) : List (String × String) :=
  match e.Args.lookup "metadata" with
  | some (.metadata m) => m
  | _ => []

/-! ## The subvolume subtree -/

/-- The subtree the content operations are meant to stay in: the mount path followed by the
reserved subvolume name. -/
def subvolumeRoot (mount : String) : String :=
  mount ++ "/" ++ "__default__"

/-- Whether one of the '/'-separated elements of a file name is `..`. -/
def hasDotDot (name : String) : Bool :=
  (splitSlash name.toList).contains ['.', '.']

/-- A stack of path elements (last element first) as `filepath.Clean` leaves it: no element is
empty, is `.` or holds a separator, and `..` occurs only on a relative path, below nothing but
further `..` elements. -/
def Canon (r : Bool) : List (List Char) → Prop
  | [] => True
  | top :: rest =>
    Canon r rest ∧ '/' ∉ top ∧ top ≠ [] ∧ top ≠ ['.'] ∧
      (top = ['.', '.'] → r = false ∧ (rest = [] ∨ ∃ tl, rest = ['.', '.'] :: tl))

/-- A save request whose file name climbs out of the subvolume. -/
def uploadEscape : InputFile :=
  { Filename := "../../etc/passwd", Contents := [104, 105], User := "mallory" }

/-- A read request whose file name climbs out of the subvolume. -/
def readEscape : OutputFile :=
  { Filename := "../../etc/passwd", SnapshotMountPath := "/snap", Contents := [] }

/-- A read request with an empty snapshot mount path. -/
def readNoMount : OutputFile :=
  { Filename := "x", SnapshotMountPath := "", Contents := [] }

/-! ## Observer (`pkg/observer/observer.go`)

A channel value is identified by a number: 0 is the nil channel, every other number is a
channel that was made. Whether a channel has been closed is run-time state of the channel, kept
next to the subscriber map. The mutex serialises the calls, so each call is one step on this
state. -/

/-- Identity of a `chan interface` value. -/
abbrev Chan := Nat

/-- The nil channel, the zero value of the channel type. It can be passed to `Subscribe` like
any other channel value; closing it panics, and a send on it never proceeds. -/
def nilChan : Chan := 0

/-- A published value (`interface` in the source). -/
abbrev Data := String

/-- The fields of `DefaultObserver` together with the closed flag of every channel. `events` is
the Go map: `none` for a missing key. -/
structure ObserverState where
  name : String
  events : String → Option (List Chan)
  closed : Chan → Bool

/-- What a call left behind: `panic = none` when it returned `nil`, otherwise the message of
the run-time panic that ended it; and the state afterwards. -/
structure Outcome where
  panic : Option String
  state : ObserverState

/-- `NewObserver`: an empty map. No channel made for it has been closed yet. -/
def NewObserver (name : String) : ObserverState :=
  { name := name, events := fun _ => none, closed := fun _ => false }

/-- The slice `o.events[event]`: empty for a missing key. -/
def subscribers (o : ObserverState) (event : String) : List Chan :=
  (o.events event).getD []

/-- `DefaultObserver.Subscribe`: `o.events[event] = append(o.events[event], outputChan)`. -/
def Subscribe (o : ObserverState) (event : String) (outputChan : Chan) : ObserverState :=
  { o with events := fun e =>
      if e = event then some (subscribers o event ++ [outputChan]) else o.events e }

/-- The loop of `Unsubscribe` over `outChans`: a channel other than `outputChan` is appended to
`newArray`, `outputChan` is closed. Go `close` panics on the nil channel and on a channel that
is already closed; the loop stops there. Returns the panic if any, `newArray` and the closed
flags. -/
def unsubscribeLoop (outputChan : Chan) :
    List Chan → List Chan → (Chan → Bool) → Option String × List Chan × (Chan → Bool)
  | [], newArray, closed => (none, newArray, closed)
  | ch :: rest, newArray, closed =>
    if ch ≠ outputChan then unsubscribeLoop outputChan rest (newArray ++ [ch]) closed
    else if ch = nilChan then (some "close of nil channel", newArray, closed)
    else if closed ch then (some "close of closed channel", newArray, closed)
    else unsubscribeLoop outputChan rest newArray (fun c => if c = ch then true else closed c)

/-- `DefaultObserver.Unsubscribe`: runs the loop and stores `newArray` under the key; when the
loop panics the assignment is not reached. -/
def Unsubscribe (o : ObserverState) (event : String) (outputChan : Chan) : Outcome :=
  let outChans := subscribers o event
  match unsubscribeLoop outputChan outChans [] o.closed with
  | (some msg, _, closed) => { panic := some msg, state := { o with closed := closed } }
  | (none, newArray, closed) =>
    { panic := none,
      state := { o with
        events := fun e => if e = event then some newArray else o.events e
        closed := closed } }

/-- What a call of `Publish` did: its outcome and the deliveries it started, one goroutine per
entry, each with the channel and the value it will send. -/
structure PublishResult where
  outcome : Outcome
  started : List (Chan × Data)

/-- `DefaultObserver.Publish`: a missing key is stored with an empty slice, then one goroutine
is started per channel of the slice. -/
def Publish (o : ObserverState) (event : String) (data : Data) : PublishResult :=
  let outChans := subscribers o event
  let o1 : ObserverState :=
    match o.events event with
    | some _ => o
    | none => { o with events := fun e => if e = event then some [] else o.events e }
  { outcome := { panic := none, state := o1 },
    started := outChans.map (fun outputChan => (outputChan, data)) }

/-- The loop of `PublishTimeout`. `ready i` tells whether in the `i`-th `select` the send
proceeds before the timer fires (on the nil channel a send never proceeds, so in a run of the
program `ready` is false at such an entry). A send on a closed channel panics. Returns the
panic if any, the channels that were tried and the values that were received, both in
order. -/
def publishTimeoutLoop (closed : Chan → Bool) (ready : Nat → Bool) (data : Data) :
    List Chan → Nat → List Chan → List (Chan × Data) →
      Option String × List Chan × List (Chan × Data)
  | [], _, tried, received => (none, tried, received)
  | outputChan :: rest, i, tried, received =>
    if closed outputChan then (some "send on closed channel", tried ++ [outputChan], received)
    else if ready i then
      publishTimeoutLoop closed ready data rest (i + 1) (tried ++ [outputChan])
        (received ++ [(outputChan, data)])
    else
      publishTimeoutLoop closed ready data rest (i + 1) (tried ++ [outputChan]) received

/-- What a call of `PublishTimeout` did. -/
structure PublishTimeoutResult where
  outcome : Outcome
  tried : List Chan
  received : List (Chan × Data)

/-- `DefaultObserver.PublishTimeout`: a missing key is stored with an empty slice, then each
channel of the slice is tried in turn. -/
def PublishTimeout (o : ObserverState) (event : String) (data : Data) (ready : Nat → Bool) :
    PublishTimeoutResult :=
  let outChans := subscribers o event
  let o1 : ObserverState :=
    match o.events event with
    | some _ => o
    | none => { o with events := fun e => if e = event then some [] else o.events e }
  match publishTimeoutLoop o1.closed ready data outChans 0 [] [] with
  | (p, tried, received) =>
    { outcome := { panic := p, state := o1 }, tried := tried, received := received }

/-- An observer on which channel 7 was subscribed twice to "commits". -/
def observerTwice : ObserverState :=
  Subscribe (Subscribe (NewObserver "fs") "commits" 7) "commits" 7

/-- An observer with channels 3, 7, 5 on "commits" and 7 on "pushes", none closed. -/
def observerThree : ObserverState :=
  Subscribe (Subscribe (Subscribe (Subscribe (NewObserver "fs") "commits" 3) "commits" 7)
    "pushes" 7) "commits" 5

/-- An observer on which channel 3 listened to "commits" and "pushes" and was unsubscribed
from "commits": the channel is closed and still on the list of "pushes". -/
def observerStale : ObserverState :=
  (Unsubscribe (Subscribe (Subscribe (NewObserver "fs") "commits" 3) "pushes" 3)
    "commits" 3).state

/-! ## External user manager (`pkg/user/external.go`) -/

/-- The fields of `ExternalManager` that `call` reads. -/
structure ExternalManager where
  url : String

/-- What `call` looks at in an `http.Response`: the status code and the outcome of
`ioutil.ReadAll(resp.Body)`, the body or the error. -/
structure HttpResponse where
  StatusCode : Int
  ReadAll : Except String String

/-- The library calls made by `call`, with their outcomes. `Do n` is the outcome of the call of
`httpClient.Do` that follows `n` earlier ones; `quote` is the `%q` formatting of a string. -/
structure HttpWorld where
  Marshal : String → Except String String
  NewRequest : String → String → Option String → Option String
  Do : Nat → Except String HttpResponse
  Unmarshal : String → Option String
  quote : String → String

/-- How one iteration of the retry loop ended. -/
inductive Attempt where
  | encodeFailed (err : String)
  | requestNotCreated (err : String)
  | doFailed (err : String)
  | readFailed (err : String)
  | decodeFailed (err : String)
  | httpError (status : Int) (body : String)
  | succeeded
deriving DecidableEq, Repr

/-- The iterations that end in `continue`: the loop goes on to another attempt. -/
def Attempt.retryable : Attempt → Bool
  | .doFailed _ => true
  | .readFailed _ => true
  | .decodeFailed _ => true
  | _ => false

/-- The iterations in which `httpClient.Do` was called. -/
def Attempt.sentRequest : Attempt → Bool
  | .encodeFailed _ => false
  | .requestNotCreated _ => false
  | _ => true

/-- What a call of `call` did: the error it returned (`none` for nil) and its iterations in
order. -/
structure CallResult where
  err : Option String
  attempts : List Attempt
deriving DecidableEq, Repr

/-- The number of HTTP requests performed. -/
def CallResult.requests (r : CallResult) : Nat :=
  (r.attempts.filter Attempt.sentRequest).length

/-- The retry loop `for retries := 60; retries > 0; retries--` of `call`, and the `return err`
after it. `err` is the variable declared by `var err error` before the loop. Inside the body,
`req, err := http.NewRequest(...)` declares a new `err` in the scope of the body, and
`resp, err := m.httpClient.Do(req)`, `b, err := ioutil.ReadAll(...)` and
`err = json.Unmarshal(...)` assign that one or one declared further inside: no statement of the
body assigns the outer variable, so it is passed on unchanged. -/
def callLoop (w : HttpWorld) (m : ExternalManager) (operation method : String)
    (body : Option String) (wantResult : Bool) :
    Nat → Option String → List Attempt → CallResult
  | 0, err, attempts => { err := err, attempts := attempts }
  | retries + 1, err, attempts =>
    let encoded : Except String (Option String) :=
      match body with
      | some b =>
        match w.Marshal b with
        | .error e => .error e
        | .ok bodyEncoded => .ok (some bodyEncoded)
      | none => .ok none
    match encoded with
    | .error e => { err := some e, attempts := attempts ++ [.encodeFailed e] }
    | .ok bodyReader =>
      match w.NewRequest method (m.url ++ "/" ++ operation) bodyReader with
      | some e => { err := some e, attempts := attempts ++ [.requestNotCreated e] }
      | none =>
        match w.Do (attempts.filter Attempt.sentRequest).length with
        | .error e =>
          callLoop w m operation method body wantResult retries err (attempts ++ [.doFailed e])
        | .ok resp =>
          if resp.StatusCode = 200 ∨ resp.StatusCode = 201 then
            if wantResult then
              match resp.ReadAll with
              | .error e =>
                callLoop w m operation method body wantResult retries err
                  (attempts ++ [.readFailed e])
              | .ok b =>
                match w.Unmarshal b with
                | some e =>
                  callLoop w m operation method body wantResult retries err
                    (attempts ++ [.decodeFailed e])
                | none => { err := none, attempts := attempts ++ [.succeeded] }
            else { err := none, attempts := attempts ++ [.succeeded] }
          else
            match resp.ReadAll with
            | .error e =>
              callLoop w m operation method body wantResult retries err
                (attempts ++ [.readFailed e])
            | .ok b =>
              { err := some ("HTTP Error: " ++ toString resp.StatusCode ++ " body: " ++ w.quote b),
                attempts := attempts ++ [.httpError resp.StatusCode b] }

/-- `ExternalManager.call`: `var err error`, then the loop with 60 retries. `wantResult` is
`result != nil`. -/
def call (w : HttpWorld) (m : ExternalManager) (operation method : String)
    (body : Option String) (wantResult : Bool) : CallResult :=
  callLoop w m operation method body wantResult 60 none []

/-- A service that cannot be reached: every request fails at the connection. -/
def worldUnreachable : HttpWorld where
  Marshal := fun b => .ok b
  NewRequest := fun _ _ _ => none
  Do := fun _ => .error "dial tcp: connection refused"
  Unmarshal := fun _ => none
  quote := fun b => "\x22" ++ b ++ "\x22"

/-- A service that refuses the first connection and then answers 403 with a body. -/
def worldForbidden : HttpWorld :=
  { worldUnreachable with
    Do := fun n =>
      if n = 0 then .error "dial tcp: connection refused"
      else .ok { StatusCode := 403, ReadAll := .ok "forbidden" } }

/-- A service that answers 201 at once. -/
def worldCreated : HttpWorld :=
  { worldUnreachable with Do := fun _ => .ok { StatusCode := 201, ReadAll := .ok "" } }

/-- The manager used in the examples. -/
def exampleManager : ExternalManager :=
  { url := "http://users.local" }

/-! ## Request-scoped identity (`pkg/auth/auth_ctx.go`) -/

/-- Modelled from the spec: `user.User` is declared outside the sources; `Id` is the field
this file reads, `Name` stands for the rest of the record. -/
structure User where
  Id : String
  Name : String
deriving DecidableEq, Repr

/-- Modelled from the spec: `user.AuthenticationType` is declared outside the sources; these
are the kinds of authentication, `AuthenticationTypeNone` for an unauthenticated request. -/
inductive AuthenticationType where
  | AuthenticationTypeNone
  | AuthenticationTypePassword
  | AuthenticationTypeAPIKey
deriving DecidableEq, Repr

/-- A value stored in a context (an `interface` value in Go) with its dynamic type: a string,
a `*user.User` pointer (`none` for a nil pointer) or an authentication type. -/
inductive CtxValue where
  | string (s : String)
  | user (u : Option User)
  | authenticationType (t : AuthenticationType)
deriving DecidableEq, Repr

/-- A `context.Context` as far as values go: the key/value pairs attached by
`context.WithValue`, the latest first. The empty list is `context.Background()`. -/
abbrev Context := List (String × CtxValue)

/-- Go `context.WithValue(ctx, key, val)`. -/
def WithValue (ctx : Context) (key : String) (val : CtxValue) : Context :=
  (key, val) :: ctx

/-- Go `ctx.Value(key)`: the value attached last under the key, `none` for nil. -/
def Value (ctx : Context) (key : String) : Option CtxValue :=
  ctx.lookup key

def authenticationUserIDContextKey : String := "authenticated-user-id"

def authenticationUserObjectContextKey : String := "authenticated-user-object"

def authenticationPasswordAuthContextKey : String := "authentication-type"

/-- An `http.Request`, of which only `r.Context()` is read. -/
structure Request where
  ctx : Context

/-- `GetUserIDFromCtx`. A failed type assertion `u.(string)` is a run-time panic, returned as
an error. -/
def GetUserIDFromCtx (ctx : Context) : Except String String :=
  match Value ctx authenticationUserIDContextKey with
  | none => .ok ""
  | some (.string s) => .ok s
  | some _ => .error "interface conversion: interface is not string"

/-- `GetUserFromCtx`: the stored pointer, or nil. -/
def GetUserFromCtx (ctx : Context) : Except String (Option User) :=
  match Value ctx authenticationUserObjectContextKey with
  | none => .ok none
  | some (.user u) => .ok u
  | some _ => .error "interface conversion: interface is not *user.User"

/-- `SetUserIDCtx`. -/
def SetUserIDCtx (ctx : Context) (id : String) : Context :=
  WithValue ctx authenticationUserIDContextKey (.string id)

/-- `GetAuthenticationType`. -/
def GetAuthenticationType (r : Request) : Except String AuthenticationType :=
  match Value r.ctx authenticationPasswordAuthContextKey with
  | none => .ok .AuthenticationTypeNone
  | some (.authenticationType t) => .ok t
  | some _ => .error "interface conversion: interface is not user.AuthenticationType"

/-- `SetAuthenticationDetailsCtx`. Reading `user.Id` through a nil pointer is a run-time
panic, returned as an error. -/
def SetAuthenticationDetailsCtx (ctx : Context) (user : Option User)
    (authenticationType : AuthenticationType) : Except String Context :=
  match user with
  | none => .error "invalid memory address or nil pointer dereference"
  | some u =>
    let ctx1 := WithValue ctx authenticationUserIDContextKey (.string u.Id)
    let ctx2 := WithValue ctx1 authenticationUserObjectContextKey (.user user)
    .ok (WithValue ctx2 authenticationPasswordAuthContextKey
      (.authenticationType authenticationType))

/-! ## Key-value wrapper (`pkg/kv/kv.go`) -/

/-- An etcd `client.Node`, reduced to its key and value. -/
structure Node where
  Key : String
  Value : String
deriving DecidableEq, Repr

/-- The field of `EtcdKV` that the lookups read: `base` is the field the source calls
`prefix`, the root under which all keys of the store live. -/
structure EtcdKV where
  base : String

/-- What `Get` calls outside its own file: the etcd client (`clientGet key` is the node of the
response or the error), and two helpers of this repository that are absent from the sources,
`validator.IsUUID` and the name index lookup `idxFindID`. -/
structure KvWorld where
  clientGet : String → Except String Node
  IsUUID : String → Bool
  idxFindID : String → String → Except String String

/-- What a call of `Get` did: what it returned and the index lookups `(prefix, name)` it made. -/
structure GetResult where
  node : Except String Node
  indexLookups : List (String × String)

/-- `EtcdKV.get`: the direct lookup of the key `k.prefix + "/" + prefix + "/" + id`. -/
def EtcdKV.get (k : EtcdKV) (w : KvWorld) (pfx id : String) : Except String Node :=
  w.clientGet (k.base ++ "/" ++ pfx ++ "/" ++ id)

/-- `EtcdKV.Get`: by id when the reference is a UUID, otherwise through the name index, and by
the reference itself when the index lookup fails. -/
def EtcdKV.Get (k : EtcdKV) (w : KvWorld) (pfx ref : String) : GetResult :=
  if w.IsUUID ref then
    { node := k.get w pfx ref, indexLookups := [] }
  else
    match w.idxFindID pfx ref with
    | .error _ => { node := k.get w pfx ref, indexLookups := [(pfx, ref)] }
    | .ok id => { node := k.get w pfx id, indexLookups := [(pfx, ref)] }

/-- A store with one user "alice" under a UUID, indexed by name. -/
def kvExample : KvWorld where
  clientGet := fun key =>
    if key = "/dotmesh.io/users/6a9bd0a5-0f1c-4b1e-9d3a-2f5c7e8b9a10" then
      .ok ⟨key, "alice-record"⟩
    else .error "100: Key not found"
  IsUUID := fun ref => ref == "6a9bd0a5-0f1c-4b1e-9d3a-2f5c7e8b9a10"
  idxFindID := fun pfx name =>
    if pfx = "users" ∧ name = "alice" then .ok "6a9bd0a5-0f1c-4b1e-9d3a-2f5c7e8b9a10"
    else .error "100: Key not found"

/-! ## Container mount symlinks (`cmd/dotmesh-server/docker.go`) -/

/-- The record `VolumeName`: a namespace and a name. -/
structure VolumeName where
  Namespace : String
  Name : String
deriving DecidableEq, Repr

/-- A call by which `newContainerMountSymlink` changes the file system. -/
inductive FsCall where
  | MkdirAll (path : String) (perm : Nat)
  | Remove (path : String)
  | Symlink (oldname newname : String)
deriving DecidableEq, Repr

/-- Outcome of `os.Lstat` as the code inspects it: an error for which `os.IsNotExist` holds,
another error, or file information whose type bits are `os.ModeSymlink` or something else.
`info` is the `%+v` rendering of the file information. -/
inductive LstatResult where
  | notExist (err : String)
  | failed (err : String)
  | symlink (info : String)
  | other (info : String)
deriving DecidableEq, Repr

/-- What `newContainerMountSymlink` calls outside its own file: path helpers of this
repository that are absent from the sources (`CONTAINER_MOUNT_PREFIX`, `containerMntParent`,
`containerMnt`, `containerMntSubvolume`, `mnt`), taken as parameters, and the operating system.
Every operating system call is given the changing calls made so far, so that its outcome may
depend on them. An error is `none` for Go `nil`. -/
structure MountWorld where
  CONTAINER_MOUNT_PREFIX : String
  containerMntParent : VolumeName → String
  containerMnt : VolumeName → String
  containerMntSubvolume : VolumeName → String → String
  mnt : String → String
  Stat : List FsCall → String → StatResult
  Lstat : List FsCall → String → LstatResult
  Readlink : List FsCall → String → Except String String
  MkdirAll : List FsCall → String → Nat → Option String
  Remove : List FsCall → String → Option String
  Symlink : List FsCall → String → String → Option String

/-- The pattern used three times in `newContainerMountSymlink`: stat the path, create it with
`os.MkdirAll` when it does not exist, give up on any other stat error. Returns the error if
any and the changing calls made so far. -/
def ensureDirectory (w : MountWorld) (calls : List FsCall) (path : String) (perm : Nat) :
    Option String × List FsCall :=
  match w.Stat calls path with
  | .notExist _ => (w.MkdirAll calls path perm, calls ++ [.MkdirAll path perm])
  | .failed err => (some err, calls)
  | .isDir => (none, calls)
  | .isFile => (none, calls)

/-- The middle part of `newContainerMountSymlink`, from `os.Lstat(mountpoint)` to the end of
that `if`: create the symlink when nothing is there, re-create it when it is a symlink whose
target does not exist, keep it when its target exists, fail when something else is there. -/
def ensureSymlink (w : MountWorld) (calls : List FsCall) (mountpoint filesystemId : String) :
    Option String × List FsCall :=
  match w.Lstat calls mountpoint with
  | .notExist _ =>
    (w.Symlink calls (w.mnt filesystemId) mountpoint,
      calls ++ [.Symlink (w.mnt filesystemId) mountpoint])
  | .failed err => (some err, calls)
  | .symlink _ =>
    match w.Readlink calls mountpoint with
    | .error err => (some err, calls)
    | .ok target =>
      match w.Stat calls mountpoint with
      | .notExist _ =>
        match w.Remove calls mountpoint with
        | some err => (some err, calls ++ [.Remove mountpoint])
        | none =>
          (w.Symlink (calls ++ [.Remove mountpoint]) (w.mnt filesystemId) mountpoint,
            calls ++ [.Remove mountpoint, .Symlink (w.mnt filesystemId) mountpoint])
      | .failed err => (some err, calls)
      | .isDir => if target = w.mnt filesystemId then (none, calls) else (none, calls)
      | .isFile => if target = w.mnt filesystemId then (none, calls) else (none, calls)
  | .other info =>
    (some ("mountpoint " ++ mountpoint ++ " contains something other than a symlink: " ++ info),
      calls)

/-- `newContainerMountSymlink`: the returned path or error, and the changing calls made, in
order. -/
def newContainerMountSymlink (w : MountWorld) (name : VolumeName)
    (filesystemId subvolume : String) : Except String String × List FsCall :=
  match ensureDirectory w [] w.CONTAINER_MOUNT_PREFIX 0o700 with
  | (some err, calls) => (.error err, calls)
  | (none, calls1) =>
    let parent := w.containerMntParent name
    match ensureDirectory w calls1 parent 0o700 with
    | (some err, calls) => (.error err, calls)
    | (none, calls2) =>
      let mountpoint := w.containerMnt name
      match ensureSymlink w calls2 mountpoint filesystemId with
      | (some err, calls) => (.error err, calls)
      | (none, calls3) =>
        let result := w.containerMntSubvolume name subvolume
        match ensureDirectory w calls3 result 0o777 with
        | (some err, calls) => (.error err, calls)
        | (none, calls4) => (.ok result, calls4)

/-- Whether a call removes or creates the entry at `path` itself. -/
def FsCall.replaces (path : String) : FsCall → Bool
  | .MkdirAll _ _ => false
  | .Remove p => p == path
  | .Symlink _ newname => newname == path

/-- A file system, simplified: the links and directories that exist. -/
structure MountDisk where
  links : List (String × String)
  dirs : List String

/-- The disk after the given calls (all of them successful). -/
def MountDisk.after (d : MountDisk) : List FsCall → MountDisk
  | [] => d
  | .MkdirAll p _ :: cs => MountDisk.after { d with dirs := p :: d.dirs } cs
  | .Remove p :: cs =>
    MountDisk.after
      { links := d.links.filter (fun l => l.1 != p), dirs := d.dirs.filter (fun q => q != p) } cs
  | .Symlink old new :: cs => MountDisk.after { d with links := (new, old) :: d.links } cs

/-- A world over a simplified disk, with mount paths as in a dotmesh server: the container
mount of `ns/name` is `/var/dotmesh/ns/name`, a link to `/var/lib/dotmesh/mnt/dmfs/<id>`. `Stat`
follows one link. Every changing call succeeds. -/
def mountWorldOn (d : MountDisk) : MountWorld where
  CONTAINER_MOUNT_PREFIX := "/var/dotmesh"
  containerMntParent := fun n => "/var/dotmesh/" ++ n.Namespace
  containerMnt := fun n => "/var/dotmesh/" ++ n.Namespace ++ "/" ++ n.Name
  containerMntSubvolume := fun n sub =>
    "/var/dotmesh/" ++ n.Namespace ++ "/" ++ n.Name ++ "/" ++ sub
  mnt := fun id => "/var/lib/dotmesh/mnt/dmfs/" ++ id
  Stat := fun calls p =>
    let now := d.after calls
    match now.links.lookup p with
    | some target =>
      if now.dirs.contains target then .isDir else .notExist "no such file or directory"
    | none => if now.dirs.contains p then .isDir else .notExist "no such file or directory"
  Lstat := fun calls p =>
    let now := d.after calls
    match now.links.lookup p with
    | some _ => .symlink "Lrwxrwxrwx"
    | none =>
      if now.dirs.contains p then .other "drwx------"
      else .notExist "no such file or directory"
  Readlink := fun calls p =>
    match (d.after calls).links.lookup p with
    | some target => .ok target
    | none => .error "invalid argument"
  MkdirAll := fun _ _ _ => none
  Remove := fun _ _ => none
  Symlink := fun _ _ _ => none

/-- A disk on which the mount of `admin/db` is a link to a filesystem that was deleted. -/
def diskDangling : MountDisk :=
  { links := [("/var/dotmesh/admin/db", "/var/lib/dotmesh/mnt/dmfs/old-fs")],
    dirs := ["/var/dotmesh", "/var/dotmesh/admin"] }

/-! ## Observer: bulk removal and sequences of calls -/

/-- The loop of `UnsubscribeAll` over `outChans`: every channel is closed. Go `close` panics on
the nil channel and on a channel that is already closed; the loop stops there. Returns the
panic if any and the closed flags. -/
def closeAllLoop : List Chan → (Chan → Bool) → Option String × (Chan → Bool)
  | [], closed => (none, closed)
  | ch :: rest, closed =>
    if ch = nilChan then (some "close of nil channel", closed)
    else if closed ch then (some "close of closed channel", closed)
    else closeAllLoop rest (fun c => if c = ch then true else closed c)

/-- `DefaultObserver.UnsubscribeAll`: closes every channel of the topic and deletes the key;
when the loop panics the `delete` is not reached. -/
def UnsubscribeAll (o : ObserverState) (event : String) : Outcome :=
  let outChans := subscribers o event
  match closeAllLoop outChans o.closed with
  | (some msg, closed) => { panic := some msg, state := { o with closed := closed } }
  | (none, closed) =>
    { panic := none,
      state := { o with
        events := fun e => if e = event then none else o.events e
        closed := closed } }

/-- A call of one of the five methods of the observer, with its arguments. For
`PublishTimeout`, `ready` stands for the timeout: which sends proceed before the timer. -/
inductive ObserverCall where
  | Subscribe (event : String) (outputChan : Chan)
  | Unsubscribe (event : String) (outputChan : Chan)
  | UnsubscribeAll (event : String)
  | Publish (event : String) (data : Data)
  | PublishTimeout (event : String) (data : Data) (ready : Nat → Bool)

/-- One call on the observer. -/
def applyCall (o : ObserverState) : ObserverCall → Outcome
  | .Subscribe event outputChan => { panic := none, state := Subscribe o event outputChan }
  | .Unsubscribe event outputChan => Unsubscribe o event outputChan
  | .UnsubscribeAll event => UnsubscribeAll o event
  | .Publish event data => (Publish o event data).outcome
  | .PublishTimeout event data ready => (PublishTimeout o event data ready).outcome

/-- A sequence of calls, one after the other; a panic ends the sequence. -/
def runCalls (o : ObserverState) : List ObserverCall → Outcome
  | [] => { panic := none, state := o }
  | c :: cs =>
    match applyCall o c with
    | ⟨some msg, o1⟩ => { panic := some msg, state := o1 }
    | ⟨none, o1⟩ => runCalls o1 cs

/-- The channels passed to `Subscribe` in a sequence of calls, in order. -/
def subscribedChans : List ObserverCall → List Chan
  | [] => []
  | .Subscribe _ outputChan :: cs => outputChan :: subscribedChans cs
  | _ :: cs => subscribedChans cs

/-- Whether a call is one of `Subscribe`, `Unsubscribe`, `UnsubscribeAll`. -/
def ObserverCall.changesSubscribers : ObserverCall → Bool
  | .Subscribe _ _ => true
  | .Unsubscribe _ _ => true
  | .UnsubscribeAll _ => true
  | _ => false

/-- The state of an observer on which every channel was subscribed at most once: a closed
channel is one of the channels `used` so far, every channel on a list is used and open, no list
holds a channel twice, and no channel is on two lists. -/
def ObserverInv (used : List Chan) (o : ObserverState) : Prop :=
  (∀ c, o.closed c = true → c ∈ used) ∧
    (∀ t c, c ∈ subscribers o t → c ∈ used ∧ o.closed c = false) ∧
    (∀ t, (subscribers o t).Nodup) ∧
    (∀ t t2 c, c ∈ subscribers o t → c ∈ subscribers o t2 → t = t2)

/-- An observer on which the nil channel was subscribed to "commits", once. -/
def observerNil : ObserverState :=
  Subscribe (NewObserver "fs") "commits" nilChan

/-- The nil channel is subscribed once to "commits" and then unsubscribed. -/
def callsNilThenUnsubscribe : List ObserverCall :=
  [.Subscribe "commits" nilChan, .Unsubscribe "commits" nilChan]

/-- The nil channel is subscribed once to "commits", then the topic is torn down. -/
def callsNilThenUnsubscribeAll : List ObserverCall :=
  [.Subscribe "commits" nilChan, .UnsubscribeAll "commits"]

/-- Channel 5 and the nil channel are subscribed to "commits", then the topic is torn down. -/
def callsNilAfterMade : List ObserverCall :=
  [.Subscribe "commits" 5, .Subscribe "commits" nilChan, .UnsubscribeAll "commits"]

/-- Channel 7 is subscribed twice to "commits" and then unsubscribed. -/
def callsTwiceThenUnsubscribe : List ObserverCall :=
  [.Subscribe "commits" 7, .Subscribe "commits" 7, .Unsubscribe "commits" 7]

/-- Channel 7 is subscribed twice to "commits", then the topic is torn down. -/
def callsTwiceThenUnsubscribeAll : List ObserverCall :=
  [.Subscribe "commits" 7, .Subscribe "commits" 7, .UnsubscribeAll "commits"]

/-- Channel 3 listens to "commits" and "pushes" and is unsubscribed from "commits". -/
def callsTwoTopics : List ObserverCall :=
  [.Subscribe "commits" 3, .Subscribe "pushes" 3, .Unsubscribe "commits" 3]

/-- Three channels, each subscribed once; one is unsubscribed, a topic is torn down, and
values are published in between. -/
def callsDisciplined : List ObserverCall :=
  [.Subscribe "commits" 3, .Subscribe "commits" 7, .Subscribe "pushes" 5,
   .Publish "commits" "c1", .Unsubscribe "commits" 7,
   .PublishTimeout "commits" "c2" (fun _ => true), .UnsubscribeAll "pushes",
   .PublishTimeout "pushes" "p1" (fun _ => false)]

/-- Three channels, each subscribed once, then removed one by one and in bulk; the last call
unsubscribes a channel that is no longer on the list. -/
def callsSubscribedOnce : List ObserverCall :=
  [.Subscribe "commits" 3, .Subscribe "commits" 7, .Subscribe "pushes" 5,
   .Unsubscribe "commits" 7, .UnsubscribeAll "pushes", .Unsubscribe "commits" 7]

/-! ## Theorems: master store -/

/-- C1: if the master record stored for `id` has NodeID `A`, then
`updateTargetMasterIfMatches(store, id, B, A)` returns no error and a following
`GetMaster(id)` returns a record whose NodeID is `B`. -/
theorem updateTargetMaster_matches (s : KVDBFilesystemStore) (id A B : String)
    (h : ownerOf s id = some A) :
    (updateTargetMasterIfMatches s id B A).1 = .ok () ∧
      ∃ fm, GetMaster (updateTargetMasterIfMatches s id B A).2 id = .ok fm ∧ fm.NodeID = B := by
  unfold ownerOf GetMaster at h
  cases hm : s.masters id with
  | none => simp [hm] at h
  | some fm =>
    simp only [hm] at h
    have hA : fm.NodeID = A := by simpa using h
    simp [updateTargetMasterIfMatches, hm, hA, GetMaster]

/-- The seed of `TestUpdateMasterA`: owner "1", compare-and-swap ("2", "1"). -/
theorem updateTargetMaster_matches_witness :
    ownerOf storeTestA "fs-id" = some "1" ∧
      ((updateTargetMasterIfMatches storeTestA "fs-id" "2" "1").1 = .ok () ∧
        ∃ fm, GetMaster (updateTargetMasterIfMatches storeTestA "fs-id" "2" "1").2 "fs-id" = .ok fm ∧
          fm.NodeID = "2") :=
  ⟨by simp [ownerOf, GetMaster, storeTestA, SetMaster],
   updateTargetMaster_matches storeTestA "fs-id" "1" "2"
     (by simp [ownerOf, GetMaster, storeTestA, SetMaster])⟩

/-- C2: if the master record stored for `id` has NodeID `C` with `C ≠ A`, then
`updateTargetMasterIfMatches(store, id, B, A)` returns an error and leaves the store as it
was, so that a following `GetMaster(id)` still returns NodeID `C`. -/
theorem updateTargetMaster_conflict (s : KVDBFilesystemStore) (id A B C : String)
    (hne : C ≠ A) (h : ownerOf s id = some C) :
    (updateTargetMasterIfMatches s id B A).1 = .error .Conflict ∧
      (updateTargetMasterIfMatches s id B A).2 = s ∧
      ownerOf (updateTargetMasterIfMatches s id B A).2 id = some C := by
  unfold ownerOf GetMaster at h
  cases hm : s.masters id with
  | none => simp [hm] at h
  | some fm =>
    simp only [hm] at h
    have hC : fm.NodeID = C := by simpa using h
    have hA : ¬ fm.NodeID = A := by rw [hC]; exact hne
    have hCA : ¬ C = A := hne
    simp [updateTargetMasterIfMatches, hm, hA, hCA, ownerOf, GetMaster, hC]

/-- The seed of `TestUpdateMasterB`: owner "3", compare-and-swap ("2", "1"). -/
theorem updateTargetMaster_conflict_witness :
    ("3" : String) ≠ "1" ∧ ownerOf storeTestB "fs-id" = some "3" ∧
      ((updateTargetMasterIfMatches storeTestB "fs-id" "2" "1").1 = .error .Conflict ∧
        (updateTargetMasterIfMatches storeTestB "fs-id" "2" "1").2 = storeTestB ∧
        ownerOf (updateTargetMasterIfMatches storeTestB "fs-id" "2" "1").2 "fs-id" = some "3") :=
  ⟨by decide, by simp [ownerOf, GetMaster, storeTestB, SetMaster],
   updateTargetMaster_conflict storeTestB "fs-id" "1" "2" "3" (by decide)
     (by simp [ownerOf, GetMaster, storeTestB, SetMaster])⟩

/-! ## Theorems: content I/O sub-states -/

/-- C3, as stated, fails for `saveFile`: when the snapshot step answers with a response that is
not named "snapshotted" and carries no `Args`, or with a nil response, the code dereferences a
nil pointer before the send on `file.Response`; the call ends in a panic and no reply was
sent. -/
theorem saveFile_panics_before_reply :
    (saveFile worldSnapshotNoArgs ⟨"fs1"⟩ uploadHi).replies = [] ∧
      (saveFile worldSnapshotNoArgs ⟨"fs1"⟩ uploadHi).panic =
        some "invalid memory address or nil pointer dereference" ∧
      (saveFile worldSnapshotNoArgs ⟨"fs1"⟩ uploadHi).next = none ∧
      (saveFile worldSnapshotNil ⟨"fs1"⟩ uploadHi).replies = [] ∧
      (saveFile worldSnapshotNil ⟨"fs1"⟩ uploadHi).next = none := by
  decide

/-- C3, amended: whatever the file system does, `readFile` and `readDirectory` send exactly one
reply on the response channel before returning their next state, on every failure path and
when `readFile` hands over to `readDirectory`; so does `saveFile`, for every outcome of the
file system steps, when the response of the snapshot step is not nil and is named
"snapshotted" or carries `Args`. -/
theorem exactly_one_reply (w : World) (f : FsMachine) (inp : InputFile) (out : OutputFile)
    (hresp : usableResponse (w.snapshot (snapshotEvent w inp inp.Contents.length)) = true) :
    ((saveFile w f inp).replies.length = 1 ∧ (saveFile w f inp).panic = none ∧
        (saveFile w f inp).next ≠ none) ∧
      (readFile w out).replies.length = 1 ∧ (readDirectory w out).replies.length = 1 := by
  have hdir : (readDirectory w out).replies.length = 1 := by
    cases hs : w.Stat (dirPath out) with
    | notExist e => simp [readDirectory, hs]
    | failed e => simp [readDirectory, hs]
    | isFile => simp [readDirectory, hs]
    | isDir =>
      rcases ha : w.ArchiveToStream (dirPath out) with ⟨tar, _ | e⟩ <;>
        simp [readDirectory, hs, ha]
  refine ⟨?_, ?_, hdir⟩
  · cases hm : w.MkdirAll (sliceTo (destPath w f inp) (LastIndex (destPath w f inp) '/')) with
    | some e => simp [saveFile, hm]
    | none =>
      cases hc : w.Create (destPath w f inp) with
      | some e => simp [saveFile, hm, hc]
      | none =>
        cases hcp : w.Copy with
        | failed k e => simp [saveFile, hm, hc, hcp, ioCopy]
        | ok =>
          cases hr : w.snapshot (snapshotEvent w inp inp.Contents.length) with
          | none => simp [hr, usableResponse] at hresp
          | some r =>
            by_cases hn : r.Name = .lit "snapshotted"
            · simp [saveFile, hm, hc, hcp, ioCopy, hr, hn]
            · cases ha : r.Args with
              | none => simp [hr, usableResponse, hn, ha] at hresp
              | some args => simp [saveFile, hm, hc, hcp, ioCopy, hr, hn, ha]
  · cases hs : w.Stat (sourcePath out) with
    | notExist e => simp [readFile, hs]
    | failed e => simp [readFile, hs]
    | isDir => simpa [readFile, hs] using hdir
    | isFile =>
      cases ho : w.Open (sourcePath out) with
      | error e => simp [readFile, hs, ho]
      | ok bytes => cases hcp : w.Copy <;> simp [readFile, hs, ho, hcp, ioCopy]

/-- A save whose snapshot step fails with a response that carries `Args`, and a read of a
missing path: one reply each. -/
theorem exactly_one_reply_witness :
    ((saveFile worldSnapshotFails ⟨"fs1"⟩ uploadHi).replies.length = 1 ∧
        (saveFile worldSnapshotFails ⟨"fs1"⟩ uploadHi).panic = none ∧
        (saveFile worldSnapshotFails ⟨"fs1"⟩ uploadHi).next ≠ none) ∧
      (readFile worldSnapshotFails readHi).replies.length = 1 ∧
      (readDirectory worldSnapshotFails readHi).replies.length = 1 :=
  exactly_one_reply worldSnapshotFails ⟨"fs1"⟩ uploadHi readHi (by decide)

/-- C4, as stated, fails: on a missing path `readFile` replies `FileNotFound` and returns the
backoff state, not the active state. -/
theorem readFile_notFound_backoff :
    (readFile worldNothingExists readHi).replies.map Event.Name = [.EventNameFileNotFound] ∧
      (readFile worldNothingExists readHi).next = .backoffState ∧
      (readFile worldNothingExists readHi).next ≠ .activeState := by
  simp [readFile, worldNothingExists, worldAllOk]

/-- C4, amended: `readFile` sends one reply; when that reply is `ReadSuccess` the next state is
active, and when it is `FileNotFound` or `ReadFailed` the next state is backoff. No other reply
name occurs. -/
theorem readFile_next_state (w : World) (file : OutputFile) :
    ∃ r, (readFile w file).replies = [r] ∧
      ((r.Name = .EventNameReadSuccess ∧ (readFile w file).next = .activeState) ∨
        ((r.Name = .EventNameFileNotFound ∨ r.Name = .EventNameReadFailed) ∧
          (readFile w file).next = .backoffState)) := by
  cases hs : w.Stat (sourcePath file) with
  | notExist e => simp [readFile, hs]
  | failed e => simp [readFile, hs]
  | isDir =>
    cases hd : w.Stat (dirPath file) with
    | notExist e => simp [readFile, hs, readDirectory, hd, NewErrorEvent]
    | failed e => simp [readFile, hs, readDirectory, hd, NewErrorEvent]
    | isFile => simp [readFile, hs, readDirectory, hd, NewErrorEvent]
    | isDir =>
      rcases ha : w.ArchiveToStream (dirPath file) with ⟨tar, _ | e⟩ <;>
        simp [readFile, hs, readDirectory, hd, ha, NewErrorEvent]
  | isFile =>
    cases ho : w.Open (sourcePath file) with
    | error e => simp [readFile, hs, ho]
    | ok bytes => cases hcp : w.Copy <;> simp [readFile, hs, ho, hcp, ioCopy]

/-- C5, as stated, fails in the "only if" direction: the stat of the source path succeeds and
reports a directory, `readFile` hands over to `readDirectory`, whose own stat of the joined
(lexically cleaned) path fails with does-not-exist, and the reply is `FileNotFound`. -/
theorem readFile_notFound_without_source_stat_failure :
    worldSymlink.Stat (sourcePath readViaLink) = .isDir ∧
      dirPath readViaLink = "/snap/__default__/d" ∧
      (readFile worldSymlink readViaLink).replies.map Event.Name = [.EventNameFileNotFound] := by
  have hsrc : sourcePath readViaLink = "/snap/__default__/link/../d" := by decide
  have hdir : dirPath readViaLink = "/snap/__default__/d" := by decide
  have h1 : worldSymlink.Stat "/snap/__default__/link/../d" = .isDir := by
    simp [worldSymlink]
  have h2 : worldSymlink.Stat "/snap/__default__/d" = .notExist "no such file or directory" := by
    simp [worldSymlink]
  refine ⟨by rw [hsrc]; exact h1, hdir, ?_⟩
  simp [readFile, readDirectory, hsrc, hdir, h1, h2, NewErrorEvent]

/-- C5, amended: `readFile` replies `FileNotFound` if and only if the stat of the source path
fails with a does-not-exist error, or that stat reports a directory and the stat `readDirectory`
makes of its joined path fails with a does-not-exist error; a failure of the stat of the source
path of any other kind is replied to with `ReadFailed`. -/
theorem readFile_fileNotFound_iff (w : World) (file : OutputFile) :
    ((readFile w file).replies.map Event.Name = [.EventNameFileNotFound] ↔
        ((∃ e, w.Stat (sourcePath file) = .notExist e) ∨
          (w.Stat (sourcePath file) = .isDir ∧ ∃ e, w.Stat (dirPath file) = .notExist e))) ∧
      (∀ e, w.Stat (sourcePath file) = .failed e →
        (readFile w file).replies.map Event.Name = [.EventNameReadFailed]) := by
  cases hs : w.Stat (sourcePath file) with
  | notExist e => simp [readFile, hs]
  | failed e => simp [readFile, hs]
  | isDir =>
    cases hd : w.Stat (dirPath file) with
    | notExist e => simp [readFile, hs, readDirectory, hd, NewErrorEvent]
    | failed e => simp [readFile, hs, readDirectory, hd, NewErrorEvent]
    | isFile => simp [readFile, hs, readDirectory, hd, NewErrorEvent]
    | isDir =>
      rcases ha : w.ArchiveToStream (dirPath file) with ⟨tar, _ | e⟩ <;>
        simp [readFile, hs, readDirectory, hd, ha, NewErrorEvent]
  | isFile =>
    cases ho : w.Open (sourcePath file) with
    | error e => simp [readFile, hs, ho]
    | ok bytes => cases hcp : w.Copy <;> simp [readFile, hs, ho, hcp, ioCopy]

/-- C6: when the source path is an existing regular file that is opened and copied without
error, `readFile` appends exactly the bytes of the file to the output stream, replies
`ReadSuccess` with empty Args, and returns the active state. -/
theorem readFile_regular_file (w : World) (file : OutputFile) (bytes : List UInt8)
    (hstat : w.Stat (sourcePath file) = .isFile) (hopen : w.Open (sourcePath file) = .ok bytes)
    (hcopy : w.Copy = .ok) :
    (readFile w file).Contents = file.Contents ++ bytes ∧
      (readFile w file).replies = [⟨.EventNameReadSuccess, []⟩] ∧
      (readFile w file).next = .activeState := by
  simp [readFile, hstat, hopen, hcopy, ioCopy]

/-- Reading the two bytes "hi" onto an output stream that already holds one byte. -/
theorem readFile_regular_file_witness :
    (readFile worldAllOk readHi).Contents = [62, 104, 105] ∧
      (readFile worldAllOk readHi).replies = [⟨.EventNameReadSuccess, []⟩] ∧
      (readFile worldAllOk readHi).next = .activeState :=
  readFile_regular_file worldAllOk readHi [104, 105] rfl rfl rfl

/-- C7: when directory creation, file creation or the stream copy fails with `cause`,
`saveFile` replies `SaveFailed` with an error under "err" whose message is the stage prefix
followed by the cause, returns the backoff state, and never calls the snapshot step. -/
theorem saveFile_write_failure (w : World) (f : FsMachine) (file : InputFile)
    (stage cause : String)
    (h : (w.MkdirAll (sliceTo (destPath w f file) (LastIndex (destPath w f file) '/'))
            = some cause ∧ stage = "failed to create directory, error: ") ∨
         (w.MkdirAll (sliceTo (destPath w f file) (LastIndex (destPath w f file) '/')) = none ∧
            w.Create (destPath w f file) = some cause ∧
            stage = "failed to create file, error: ") ∨
         (w.MkdirAll (sliceTo (destPath w f file) (LastIndex (destPath w f file) '/')) = none ∧
            w.Create (destPath w f file) = none ∧ (∃ k, w.Copy = .failed k cause) ∧
            stage = "cannot to create a file, error: ")) :
    (saveFile w f file).replies = [⟨.EventNameSaveFailed, [("err", .error (stage ++ cause))]⟩] ∧
      (saveFile w f file).next = some .backoffState ∧ (saveFile w f file).snapshots = [] := by
  rcases h with ⟨hm, rfl⟩ | ⟨hm, hc, rfl⟩ | ⟨hm, hc, ⟨k, hk⟩, rfl⟩
  · simp [saveFile, hm]
  · simp [saveFile, hm, hc]
  · simp [saveFile, hm, hc, hk, ioCopy]

/-- A copy that fails after one byte for lack of disk space. -/
theorem saveFile_write_failure_witness :
    (saveFile worldCopyFails ⟨"fs1"⟩ uploadHi).replies =
        [⟨.EventNameSaveFailed,
          [("err", .error ("cannot to create a file, error: " ++ "no space left on device"))]⟩] ∧
      (saveFile worldCopyFails ⟨"fs1"⟩ uploadHi).next = some .backoffState ∧
      (saveFile worldCopyFails ⟨"fs1"⟩ uploadHi).snapshots = [] :=
  saveFile_write_failure worldCopyFails ⟨"fs1"⟩ uploadHi "cannot to create a file, error: "
    "no space left on device" (Or.inr (Or.inr ⟨rfl, rfl, ⟨1, rfl⟩, rfl⟩))

/-- C8, as stated, fails: after a successful write, a snapshot response that is not named
"snapshotted" and carries no `Args` makes the code dereference a nil pointer while it formats
the log entry, before the reply: no `SaveFailed` is sent and no state is returned, although the
bytes of the file were written. -/
theorem saveFile_no_SaveFailed_without_args :
    worldSnapshotNoArgs.snapshot
        (snapshotEvent worldSnapshotNoArgs uploadHi uploadHi.Contents.length) =
        some ⟨.lit "failed-snapshot", none⟩ ∧
      (saveFile worldSnapshotNoArgs ⟨"fs1"⟩ uploadHi).replies ≠
        [⟨.EventNameSaveFailed, [("err", .string "file snapshot failed")]⟩] ∧
      (saveFile worldSnapshotNoArgs ⟨"fs1"⟩ uploadHi).next ≠ some .backoffState ∧
      (saveFile worldSnapshotNoArgs ⟨"fs1"⟩ uploadHi).wrote =
        some (destPath worldSnapshotNoArgs ⟨"fs1"⟩ uploadHi, uploadHi.Contents) := by
  decide

/-- C8, amended: when directory creation, file creation and the stream copy all succeed and
the snapshot step hands back a response, `saveFile` replies `SaveSuccess` and returns the
active state exactly when the response is named "snapshotted"; for every other response that
carries `Args` it replies `SaveFailed` and returns the backoff state, although the bytes of the
file were written. -/
theorem saveFile_snapshot_outcome (w : World) (f : FsMachine) (file : InputFile)
    (resp : ResponseEvent)
    (hmkdir : w.MkdirAll (sliceTo (destPath w f file) (LastIndex (destPath w f file) '/')) = none)
    (hcreate : w.Create (destPath w f file) = none) (hcopy : w.Copy = .ok)
    (hresp : w.snapshot (snapshotEvent w file file.Contents.length) = some resp) :
    (((saveFile w f file).replies = [⟨.EventNameSaveSuccess, []⟩] ∧
          (saveFile w f file).next = some .activeState) ↔
        resp.Name = .lit "snapshotted") ∧
      (resp.Name ≠ .lit "snapshotted" → resp.Args ≠ none →
        (saveFile w f file).replies =
            [⟨.EventNameSaveFailed, [("err", .string "file snapshot failed")]⟩] ∧
          (saveFile w f file).next = some .backoffState) ∧
      (saveFile w f file).wrote = some (destPath w f file, file.Contents) := by
  by_cases hn : resp.Name = .lit "snapshotted"
  · simp [saveFile, hmkdir, hcreate, hcopy, ioCopy, hresp, hn]
  · cases ha : resp.Args <;> simp [saveFile, hmkdir, hcreate, hcopy, ioCopy, hresp, hn, ha]

/-- An upload whose snapshot step answers "failed-snapshot" with the cause in its `Args`: the
save is reported failed although the two bytes were written. -/
theorem saveFile_snapshot_outcome_witness :
    (saveFile worldSnapshotFails ⟨"fs1"⟩ uploadHi).replies =
        [⟨.EventNameSaveFailed, [("err", .string "file snapshot failed")]⟩] ∧
      (saveFile worldSnapshotFails ⟨"fs1"⟩ uploadHi).next = some .backoffState ∧
      (saveFile worldSnapshotFails ⟨"fs1"⟩ uploadHi).wrote =
        some (destPath worldSnapshotFails ⟨"fs1"⟩ uploadHi, uploadHi.Contents) :=
  have h := saveFile_snapshot_outcome worldSnapshotFails ⟨"fs1"⟩ uploadHi
    ⟨.lit "failed-snapshot", some [("err", .error "cannot create snapshot")]⟩ rfl rfl rfl rfl
  ⟨(h.2.1 (by decide) (by decide)).1, (h.2.1 (by decide) (by decide)).2, h.2.2⟩

/-- C9: when the write succeeds with `n` bytes copied (`n` is the length of the contents), the
one event `saveFile` passes to the snapshot step is named "snapshot" and its metadata has
message "Uploaded " + Filename + " (" + formatBytes(n) + ")", author the User of the file,
type "upload", upload.file the Filename and upload.bytes the decimal rendering of `n`. -/
theorem saveFile_snapshot_metadata (w : World) (f : FsMachine) (file : InputFile)
    (hmkdir : w.MkdirAll (sliceTo (destPath w f file) (LastIndex (destPath w f file) '/')) = none)
    (hcreate : w.Create (destPath w f file) = none) (hcopy : w.Copy = .ok) :
    ∃ ev, (saveFile w f file).snapshots = [ev] ∧ ev.Name = .lit "snapshot" ∧
      (metadataOf ev).lookup "message" =
        some ("Uploaded " ++ file.Filename ++ " (" ++ w.formatBytes file.Contents.length ++ ")") ∧
      (metadataOf ev).lookup "author" = some file.User ∧
      (metadataOf ev).lookup "type" = some "upload" ∧
      (metadataOf ev).lookup "upload.file" = some file.Filename ∧
      (metadataOf ev).lookup "upload.bytes" = some (Nat.repr file.Contents.length) := by
  refine ⟨snapshotEvent w file file.Contents.length, ?_, rfl, ?_, ?_, ?_, ?_, ?_⟩
  · cases hr : w.snapshot (snapshotEvent w file file.Contents.length) with
    | none => simp [saveFile, hmkdir, hcreate, hcopy, ioCopy, hr]
    | some r =>
      by_cases hn : r.Name = .lit "snapshotted"
      · simp [saveFile, hmkdir, hcreate, hcopy, ioCopy, hr, hn]
      · cases ha : r.Args <;> simp [saveFile, hmkdir, hcreate, hcopy, ioCopy, hr, hn, ha]
  · simp [metadataOf, snapshotEvent, List.lookup]
  · simp [metadataOf, snapshotEvent, List.lookup]
  · simp [metadataOf, snapshotEvent, List.lookup]
  · simp [metadataOf, snapshotEvent, List.lookup]
  · simp [metadataOf, snapshotEvent, List.lookup]
    rfl

/-- The snapshot request of a two-byte upload by "alice". -/
theorem saveFile_snapshot_metadata_witness :
    ∃ ev, (saveFile worldAllOk ⟨"fs1"⟩ uploadHi).snapshots = [ev] ∧ ev.Name = .lit "snapshot" ∧
      (metadataOf ev).lookup "message" =
        some ("Uploaded " ++ uploadHi.Filename ++ " (" ++
          worldAllOk.formatBytes uploadHi.Contents.length ++ ")") ∧
      (metadataOf ev).lookup "author" = some uploadHi.User ∧
      (metadataOf ev).lookup "type" = some "upload" ∧
      (metadataOf ev).lookup "upload.file" = some uploadHi.Filename ∧
      (metadataOf ev).lookup "upload.bytes" = some (Nat.repr uploadHi.Contents.length) :=
  saveFile_snapshot_metadata worldAllOk ⟨"fs1"⟩ uploadHi rfl rfl rfl

/-! ## Lemmas on paths -/

theorem lastIndexAux_nonneg (c : Char) (l : List Char) (i : Nat) (best : Int)
    (h : 0 ≤ best ∨ c ∈ l) : 0 ≤ lastIndexAux c l i best := by
  induction l generalizing i best with
  | nil => simpa [lastIndexAux] using h
  | cons x xs ih =>
    unfold lastIndexAux
    apply ih
    by_cases hx : x = c
    · left; simp [hx]
    · rcases h with h | h
      · left; simp [hx, h]
      · right
        rcases List.mem_cons.1 h with h | h
        · exact absurd h.symm hx
        · exact h

/-- The slice `destPath[:strings.LastIndex(destPath, "/")]` of `saveFile` never has a negative
bound: the formatted path always holds a separator. -/
theorem lastIndex_destPath_nonneg (w : World) (f : FsMachine) (file : InputFile) :
    0 ≤ LastIndex (destPath w f file) '/' := by
  apply lastIndexAux_nonneg
  right
  simp [destPath, String.toList]

theorem splitSlash_ne_nil (p : List Char) : splitSlash p ≠ [] := by
  induction p with
  | nil => simp [splitSlash]
  | cons c cs ih =>
    unfold splitSlash
    split
    · simp
    · split <;> simp

theorem splitSlash_append_slash (a b : List Char) :
    splitSlash (a ++ '/' :: b) = splitSlash a ++ splitSlash b := by
  induction a with
  | nil => simp [splitSlash]
  | cons c cs ih =>
    by_cases hc : c = '/'
    · simp [splitSlash, hc, ih]
    · cases hs : splitSlash cs with
      | nil => exact absurd hs (splitSlash_ne_nil cs)
      | cons s ss => simp [splitSlash, hc, ih, hs]

theorem foldl_cleanStep_no_dotdot (r : Bool) (segs : List (List Char))
    (h : ∀ seg ∈ segs, seg ≠ ['.', '.']) (stk : List (List Char)) :
    ∃ kept, segs.foldl (cleanStep r) stk = kept ++ stk := by
  induction segs generalizing stk with
  | nil => exact ⟨[], rfl⟩
  | cons seg rest ih =>
    have hseg : seg ≠ ['.', '.'] := h seg (List.mem_cons_self _ _)
    have hrest : ∀ s ∈ rest, s ≠ ['.', '.'] := fun s hs => h s (List.mem_cons_of_mem _ hs)
    simp only [List.foldl_cons]
    by_cases hskip : seg = [] ∨ seg = ['.']
    · have : cleanStep r stk seg = stk := by simp [cleanStep, hskip]
      rw [this]; exact ih hrest stk
    · have : cleanStep r stk seg = seg :: stk := by simp [cleanStep, hskip, hseg]
      rw [this]
      obtain ⟨kept, hk⟩ := ih hrest (seg :: stk)
      exact ⟨kept ++ [seg], by simp [hk]⟩

theorem isRooted_append (a b : List Char) (ha : a ≠ []) : isRooted (a ++ b) = isRooted a := by
  cases a with
  | nil => exact absurd rfl ha
  | cons c cs => rfl

theorem inside_of_append (root name : String) (hroot : root ≠ "")
    (h : hasDotDot name = false) :
    insideSubtree root (root ++ "/" ++ name) = true := by
  have hdata : (root ++ "/" ++ name).toList = root.toList ++ '/' :: name.toList := by
    simp [String.toList]
  have hne : root.toList ≠ [] := by
    intro h0
    apply hroot
    cases root with
    | mk d => simp [String.toList] at h0; simp [h0]
  have hno : ∀ seg ∈ splitSlash name.toList, seg ≠ ['.', '.'] := by
    intro seg hseg heq
    unfold hasDotDot at h
    rw [heq] at hseg
    simp at h
    exact h hseg
  obtain ⟨kept, hk⟩ := foldl_cleanStep_no_dotdot (isRooted root.toList) _ hno
    ((splitSlash root.toList).foldl (cleanStep (isRooted root.toList)) [])
  simp only [insideSubtree, normalForm, hdata, isRooted_append _ _ hne, splitSlash_append_slash,
    cleanSegs, List.foldl_append, hk, List.reverse_append, beq_self_eq_true, Bool.true_and,
    List.isPrefixOf_iff_prefix]
  exact List.prefix_append _ _

theorem splitSlash_no_slash (p : List Char) : ∀ seg ∈ splitSlash p, '/' ∉ seg := by
  induction p with
  | nil => simp [splitSlash]
  | cons c cs ih =>
    by_cases hc : c = '/'
    · simpa [splitSlash, hc] using ih
    · cases hs : splitSlash cs with
      | nil => exact absurd hs (splitSlash_ne_nil cs)
      | cons s ss =>
        rw [hs] at ih
        intro seg hseg
        simp [splitSlash, hc, hs] at hseg
        rcases hseg with rfl | hseg
        · have := ih s (List.mem_cons_self _ _)
          simp [this, Ne.symm hc]
        · exact ih seg (List.mem_cons_of_mem _ hseg)

theorem splitSlash_of_no_slash (s : List Char) (h : '/' ∉ s) : splitSlash s = [s] := by
  induction s with
  | nil => rfl
  | cons c cs ih =>
    have hc : ¬ c = '/' := fun e => h (by simp [e])
    have hcs : '/' ∉ cs := fun e => h (List.mem_cons_of_mem _ e)
    simp [splitSlash, hc, ih hcs]

theorem splitSlash_joinSlash (segs : List (List Char)) (hne : segs ≠ [])
    (h : ∀ seg ∈ segs, '/' ∉ seg) : splitSlash (joinSlash segs) = segs := by
  induction segs with
  | nil => exact absurd rfl hne
  | cons s rest ih =>
    cases rest with
    | nil => simpa [joinSlash] using splitSlash_of_no_slash s (h s (List.mem_cons_self _ _))
    | cons t ts =>
      have hrest : ∀ seg ∈ t :: ts, '/' ∉ seg := fun seg hs => h seg (List.mem_cons_of_mem _ hs)
      rw [joinSlash, splitSlash_append_slash, ih (by simp) hrest,
        splitSlash_of_no_slash s (h s (List.mem_cons_self _ _))]
      rfl

theorem canon_cleanStep (r : Bool) (stk : List (List Char)) (seg : List Char)
    (hstk : Canon r stk) (hseg : '/' ∉ seg) : Canon r (cleanStep r stk seg) := by
  unfold cleanStep
  by_cases hskip : seg = [] ∨ seg = ['.']
  · simpa [hskip] using hstk
  · rw [if_neg hskip]
    by_cases hdd : seg = ['.', '.']
    · rw [if_pos hdd]
      cases stk with
      | nil => cases r <;> simp [Canon]
      | cons top rest =>
        by_cases htop : top = ['.', '.']
        · have hr := hstk.2.2.2.2 htop
          simp only [htop, if_true]
          subst htop
          exact ⟨hstk, by simp, by simp, by simp, fun _ => ⟨hr.1, Or.inr ⟨rest, rfl⟩⟩⟩
        · simp only [htop, if_false]
          exact hstk.1
    · rw [if_neg hdd]
      push_neg at hskip
      exact ⟨hstk, hseg, hskip.1, hskip.2, fun e => absurd e hdd⟩

theorem canon_foldl (r : Bool) (segs stk : List (List Char)) (hstk : Canon r stk)
    (hsegs : ∀ seg ∈ segs, '/' ∉ seg) : Canon r (segs.foldl (cleanStep r) stk) := by
  induction segs generalizing stk with
  | nil => exact hstk
  | cons seg rest ih =>
    exact ih _ (canon_cleanStep r stk seg hstk (hsegs seg (List.mem_cons_self _ _)))
      (fun s hs => hsegs s (List.mem_cons_of_mem _ hs))

theorem canon_elems (r : Bool) (stk : List (List Char)) (h : Canon r stk) :
    ∀ seg ∈ stk, '/' ∉ seg ∧ seg ≠ [] := by
  induction stk with
  | nil => simp
  | cons top rest ih =>
    intro seg hseg
    rcases List.mem_cons.1 hseg with rfl | hmem
    · exact ⟨h.2.1, h.2.2.1⟩
    · exact ih h.1 seg hmem

theorem foldl_cleanStep_canon (r : Bool) (stk : List (List Char)) (h : Canon r stk) :
    stk.reverse.foldl (cleanStep r) [] = stk := by
  induction stk with
  | nil => rfl
  | cons top rest ih =>
    rw [List.reverse_cons, List.foldl_append, ih h.1]
    simp only [List.foldl_cons, List.foldl_nil]
    obtain ⟨_, _, h1, h2, h3⟩ := h
    unfold cleanStep
    rw [if_neg (by simp [h1, h2])]
    by_cases hdd : top = ['.', '.']
    · obtain ⟨hr, hrest⟩ := h3 hdd
      rw [if_pos hdd]
      rcases hrest with rfl | ⟨tl, rfl⟩
      · simp [hr, hdd]
      · simp [hdd]
    · rw [if_neg hdd]

theorem isRooted_joinSlash (s : List Char) (rest : List (List Char)) (hs : s ≠ [])
    (hslash : '/' ∉ s) : isRooted (joinSlash (s :: rest)) = false := by
  cases s with
  | nil => exact absurd rfl hs
  | cons c cs =>
    have hc : ¬ c = '/' := fun e => hslash (by simp [e])
    cases rest <;> simp [joinSlash, isRooted, hc]

theorem normalForm_Clean (p : String) : normalForm (Clean p) = normalForm p := by
  have hcanon : Canon (isRooted p.toList)
      ((splitSlash p.toList).foldl (cleanStep (isRooted p.toList)) []) :=
    canon_foldl _ _ [] trivial (splitSlash_no_slash _)
  generalize hstk : (splitSlash p.toList).foldl (cleanStep (isRooted p.toList)) [] = stk
    at hcanon
  have helems := canon_elems _ _ hcanon
  have hfold := foldl_cleanStep_canon _ _ hcanon
  have hnf : normalForm p = (isRooted p.toList, stk.reverse) := by
    unfold normalForm cleanSegs
    rw [hstk]
  have hrev : ∀ seg ∈ stk.reverse, '/' ∉ seg := fun seg hs =>
    (helems seg (List.mem_reverse.1 hs)).1
  rw [Clean, hnf]
  cases hr : isRooted p.toList with
  | true =>
    rw [hr] at hfold
    by_cases hnil : stk.reverse = []
    · simp [renderPath, normalForm, isRooted, splitSlash, cleanSegs, hnil, joinSlash, cleanStep]
    · simp [renderPath, normalForm, isRooted, splitSlash, cleanSegs,
        splitSlash_joinSlash _ hnil hrev, cleanStep, hfold]
  | false =>
    rw [hr] at hfold
    by_cases hnil : stk.reverse = []
    · simp only [renderPath, hnil]
      decide
    · obtain ⟨s, rest, hsr⟩ := List.exists_cons_of_ne_nil hnil
      have hs := helems s (List.mem_reverse.1 (by rw [hsr]; exact List.mem_cons_self _ _))
      have hroot : isRooted (joinSlash stk.reverse) = false := by
        rw [hsr]; exact isRooted_joinSlash s rest hs.2 hs.1
      simp [renderPath, hnil, normalForm, hroot, cleanSegs,
        splitSlash_joinSlash _ hnil hrev, hfold]

/-- A path under a non-empty mount path is joined by `filepath.Join` into the cleaned form of
the path the format string builds. -/
theorem dirPath_eq_Clean (file : OutputFile) (h : file.SnapshotMountPath ≠ "") :
    dirPath file = Clean (sourcePath file) := by
  have hjoin : stringsJoin [file.SnapshotMountPath, "__default__", file.Filename] =
      sourcePath file := by
    simp only [stringsJoin, sourcePath, String.append_assoc]
  unfold dirPath Join
  rw [if_neg h, hjoin]

/-! ## Theorems: path containment -/

/-- C10, as stated, fails: with the file name `../../etc/passwd` the path `saveFile` writes to
and the paths `readFile` and `readDirectory` read from normalise to paths outside the subtree
of the subvolume; and with an empty snapshot mount path `readDirectory` reads from a relative
path, which is not under `/__default__`. -/
theorem traversal_escapes_subvolume :
    Clean (destPath worldAllOk ⟨"fs1"⟩ uploadEscape) = "/var/lib/dotmesh/mnt/dmfs/etc/passwd" ∧
      insideSubtree (subvolumeRoot (worldAllOk.Mnt "fs1"))
        (destPath worldAllOk ⟨"fs1"⟩ uploadEscape) = false ∧
      Clean (sourcePath readEscape) = "/etc/passwd" ∧
      insideSubtree (subvolumeRoot "/snap") (sourcePath readEscape) = false ∧
      dirPath readEscape = "/etc/passwd" ∧
      insideSubtree (subvolumeRoot "/snap") (dirPath readEscape) = false ∧
      dirPath readNoMount = "__default__/x" ∧
      insideSubtree (subvolumeRoot "") (dirPath readNoMount) = false := by
  decide

/-- C10, amended: when no '/'-separated element of the file name is `..`, the path `saveFile`
writes to and the path `readFile` reads from, once lexically normalised, lie inside the subtree
`<mount path>/__default__`; so does the path `readDirectory` reads from when the snapshot mount
path is not empty. A leading "/" in the file name does no harm. -/
theorem no_dotdot_stays_inside (w : World) (f : FsMachine) (inp : InputFile) (out : OutputFile)
    (hin : hasDotDot inp.Filename = false) (hout : hasDotDot out.Filename = false) :
    insideSubtree (subvolumeRoot (w.Mnt f.filesystemId)) (destPath w f inp) = true ∧
      insideSubtree (subvolumeRoot out.SnapshotMountPath) (sourcePath out) = true ∧
      (out.SnapshotMountPath ≠ "" →
        insideSubtree (subvolumeRoot out.SnapshotMountPath) (dirPath out) = true) := by
  have hroot : ∀ m : String, subvolumeRoot m ≠ "" := by
    intro m h
    have hlen := congrArg String.length h
    simp only [subvolumeRoot, String.length_append] at hlen
    have hpos : 0 < "/".length := by decide
    have hzero : ("" : String).length = 0 := rfl
    omega
  have hsrc := inside_of_append (subvolumeRoot out.SnapshotMountPath) out.Filename
    (hroot _) hout
  refine ⟨inside_of_append (subvolumeRoot (w.Mnt f.filesystemId)) inp.Filename (hroot _) hin,
    hsrc, fun hm => ?_⟩
  rw [dirPath_eq_Clean out hm]
  unfold insideSubtree
  rw [normalForm_Clean]
  exact hsrc

/-- A nested file name with a leading separator stays under the subvolume. -/
theorem no_dotdot_stays_inside_witness :
    insideSubtree (subvolumeRoot (worldAllOk.Mnt "fs1"))
        (destPath worldAllOk ⟨"fs1"⟩ uploadHi) = true ∧
      insideSubtree (subvolumeRoot "/snap") (sourcePath readHi) = true ∧
      insideSubtree (subvolumeRoot "/snap") (dirPath readHi) = true :=
  have h := no_dotdot_stays_inside worldAllOk ⟨"fs1"⟩ uploadHi readHi (by decide) (by decide)
  ⟨h.1, h.2.1, h.2.2 (by decide)⟩

/-! ## Lemmas on the observer loops -/

theorem unsubscribeLoop_absent (c : Chan) (l acc : List Chan) (closed : Chan → Bool)
    (h : c ∉ l) : unsubscribeLoop c l acc closed = (none, acc ++ l, closed) := by
  induction l generalizing acc with
  | nil => simp [unsubscribeLoop]
  | cons x xs ih =>
    have hx : x ≠ c := fun e => h (by simp [e])
    have hxs : c ∉ xs := fun e => h (List.mem_cons_of_mem _ e)
    simp [unsubscribeLoop, hx, ih _ hxs]

theorem unsubscribeLoop_once (c : Chan) (l acc : List Chan) (closed : Chan → Bool)
    (hcount : l.count c ≤ 1) (hmade : c ∈ l → c ≠ nilChan) (hopen : c ∈ l → closed c = false) :
    unsubscribeLoop c l acc closed =
      (none, acc ++ l.filter (fun x => x ≠ c),
        if c ∈ l then (fun x => if x = c then true else closed x) else closed) := by
  induction l generalizing acc with
  | nil => simp [unsubscribeLoop]
  | cons x xs ih =>
    by_cases hx : x = c
    · subst hx
      have hnot : x ∉ xs := by
        intro hmem
        have := List.count_pos_iff.2 hmem
        simp [List.count_cons] at hcount
        omega
      have hcl : closed x = false := hopen (List.mem_cons_self _ _)
      have hnn : x ≠ nilChan := hmade (List.mem_cons_self _ _)
      have hfilter : xs.filter (fun y => !decide (y = x)) = xs := by
        apply List.filter_eq_self.2
        intro y hy
        simp
        intro e
        exact hnot (e ▸ hy)
      simp [unsubscribeLoop, hcl, hnn, unsubscribeLoop_absent _ _ _ _ hnot, hfilter]
    · have hcount2 : xs.count c ≤ 1 := by
        simp [List.count_cons, hx] at hcount
        exact hcount
      have hopen2 : c ∈ xs → closed c = false := fun hm => hopen (List.mem_cons_of_mem _ hm)
      have hmade2 : c ∈ xs → c ≠ nilChan := fun hm => hmade (List.mem_cons_of_mem _ hm)
      have hmem : c ∈ x :: xs ↔ c ∈ xs := by
        simp [List.mem_cons, Ne.symm hx]
      simp [unsubscribeLoop, hx, ih _ hcount2 hmade2 hopen2, hmem, Ne.symm hx]

theorem publishTimeoutLoop_open (closed : Chan → Bool) (ready : Nat → Bool) (data : Data)
    (l : List Chan) (i : Nat) (tried : List Chan) (received : List (Chan × Data))
    (hopen : ∀ c ∈ l, closed c = false) :
    publishTimeoutLoop closed ready data l i tried received =
      (none, tried ++ l,
        received ++ ((l.enumFrom i).filter (fun p => ready p.1)).map (fun p => (p.2, data))) := by
  induction l generalizing i tried received with
  | nil => simp [publishTimeoutLoop]
  | cons x xs ih =>
    have hx : closed x = false := hopen x (List.mem_cons_self _ _)
    have hxs : ∀ c ∈ xs, closed c = false := fun c hc => hopen c (List.mem_cons_of_mem _ hc)
    by_cases hr : ready i
    · simp [publishTimeoutLoop, hx, hr, ih _ _ _ hxs, List.enumFrom_cons, List.filter_cons]
    · simp [publishTimeoutLoop, hx, hr, ih _ _ _ hxs, List.enumFrom_cons, List.filter_cons]

/-! ## Theorems: observer -/

/-- C11, as stated, fails: when the channel is on the list of the topic twice, or was closed
by an earlier `Unsubscribe` from another topic, the second `close` panics; and when the nil
channel is on the list, its `close` panics. `Unsubscribe` does not return and the list of the
topic is not replaced. -/
theorem unsubscribe_panics_on_second_close :
    (Unsubscribe observerTwice "commits" 7).panic = some "close of closed channel" ∧
      subscribers (Unsubscribe observerTwice "commits" 7).state "commits" = [7, 7] ∧
      subscribers observerStale "pushes" = [3] ∧
      (Unsubscribe observerStale "pushes" 3).panic = some "close of closed channel" ∧
      subscribers (Unsubscribe observerStale "pushes" 3).state "pushes" = [3] ∧
      subscribers observerNil "commits" = [nilChan] ∧
      observerNil.closed nilChan = false ∧
      (Unsubscribe observerNil "commits" nilChan).panic = some "close of nil channel" ∧
      subscribers (Unsubscribe observerNil "commits" nilChan).state "commits" = [nilChan] := by
  decide

/-- C11, amended: when `c` is on the list of `t` at most once and, if it is there, is not the
nil channel and has not been closed yet, `Unsubscribe(t, c)` returns nil and leaves the list of
`t` equal to the previous list without `c`, the other channels in their order; `c` is closed
when it was on the list, no other channel changes its closed flag, and the entry of every other
topic is unchanged. -/
theorem unsubscribe_removes_and_closes (o : ObserverState) (t : String) (c : Chan)
    (honce : (subscribers o t).count c ≤ 1)
    (hmade : c ∈ subscribers o t → c ≠ nilChan)
    (hopen : c ∈ subscribers o t → o.closed c = false) :
    (Unsubscribe o t c).panic = none ∧
      subscribers (Unsubscribe o t c).state t = (subscribers o t).filter (fun x => x ≠ c) ∧
      (c ∈ subscribers o t → (Unsubscribe o t c).state.closed c = true) ∧
      (c ∉ subscribers o t → (Unsubscribe o t c).state.closed c = o.closed c) ∧
      (∀ d, d ≠ c → (Unsubscribe o t c).state.closed d = o.closed d) ∧
      (∀ e, e ≠ t → (Unsubscribe o t c).state.events e = o.events e) := by
  have hloop := unsubscribeLoop_once c (subscribers o t) [] o.closed honce hmade hopen
  by_cases hmem : c ∈ subscribers o t
  · simp only [hmem, if_true, List.nil_append] at hloop
    have hU : Unsubscribe o t c =
        { panic := none,
          state := { o with
            events := fun e =>
              if e = t then some ((subscribers o t).filter (fun x => x ≠ c)) else o.events e
            closed := fun x => if x = c then true else o.closed x } } := by
      simp only [Unsubscribe, hloop]
    rw [hU]
    refine ⟨rfl, by simp [subscribers], fun _ => by simp, fun h => absurd hmem h,
      fun d hd => by simp [hd], fun e he => by simp [he]⟩
  · simp only [hmem, if_false, List.nil_append] at hloop
    have hU : Unsubscribe o t c =
        { panic := none,
          state := { o with
            events := fun e =>
              if e = t then some ((subscribers o t).filter (fun x => x ≠ c)) else o.events e
            closed := o.closed } } := by
      simp only [Unsubscribe, hloop]
    rw [hU]
    refine ⟨rfl, by simp [subscribers], fun h => absurd h hmem, fun _ => rfl,
      fun d _ => rfl, fun e he => by simp [he]⟩

/-- Channel 7 leaves "commits"; 3 and 5 stay in order, "pushes" still lists 7. -/
theorem unsubscribe_removes_and_closes_witness :
    (Unsubscribe observerThree "commits" 7).panic = none ∧
      subscribers (Unsubscribe observerThree "commits" 7).state "commits" = [3, 5] ∧
      (Unsubscribe observerThree "commits" 7).state.closed 7 = true ∧
      (Unsubscribe observerThree "commits" 7).state.closed 3 = false ∧
      (Unsubscribe observerThree "commits" 7).state.events "pushes" = some [7] :=
  have h := unsubscribe_removes_and_closes observerThree "commits" 7 (by decide)
    (fun _ => by decide) (fun _ => by decide)
  ⟨h.1, by rw [h.2.1]; decide, h.2.2.1 (by decide), by rw [h.2.2.2.2.1 3 (by decide)]; decide,
    by rw [h.2.2.2.2.2 "pushes" (by decide)]; decide⟩

/-- C12: `Publish(t, d)` returns nil and starts one delivery of `d` per entry of the list of
`t` at the time of the call, in list order and to no other channel; the subscriber list of
every topic and the closed flag of every channel are as before. -/
theorem publish_starts_one_delivery_each (o : ObserverState) (t : String) (d : Data) :
    (Publish o t d).outcome.panic = none ∧
      (Publish o t d).started = (subscribers o t).map (fun c => (c, d)) ∧
      ((Publish o t d).started.map Prod.fst = subscribers o t) ∧
      (∀ e, subscribers (Publish o t d).outcome.state e = subscribers o e) ∧
      (Publish o t d).outcome.state.closed = o.closed := by
  refine ⟨rfl, rfl, ?_, ?_, ?_⟩
  · simp [Publish, List.map_map, Function.comp_def]
  · intro e
    cases h : o.events t with
    | some l => simp [Publish, h]
    | none =>
      by_cases he : e = t
      · subst he; simp [Publish, h, subscribers]
      · simp [Publish, h, subscribers, he]
  · cases h : o.events t <;> simp [Publish, h]

/-- C13, as stated, fails: channel 3 was closed by `Unsubscribe` from "commits" and is still on
the list of "pushes"; `PublishTimeout` on "pushes" sends on the closed channel, which panics
instead of returning nil, and nothing is received. -/
theorem publishTimeout_panics_on_closed_channel :
    subscribers observerStale "pushes" = [3] ∧ observerStale.closed 3 = true ∧
      (PublishTimeout observerStale "pushes" "d" (fun _ => true)).outcome.panic =
        some "send on closed channel" ∧
      (PublishTimeout observerStale "pushes" "d" (fun _ => true)).received = [] := by
  decide

/-- C13, amended: when no channel on the list of `t` is closed, `PublishTimeout(t, d, timeout)`
returns nil after trying each entry of the list once in subscription order; the entries whose
receiver accepts within the timeout receive `d` once each, the others receive nothing, and a
dropped delivery does not stop the later attempts. The lists and closed flags are unchanged. -/
theorem publishTimeout_tries_each_once (o : ObserverState) (t : String) (d : Data)
    (ready : Nat → Bool) (hopen : ∀ c ∈ subscribers o t, o.closed c = false) :
    (PublishTimeout o t d ready).outcome.panic = none ∧
      (PublishTimeout o t d ready).tried = subscribers o t ∧
      (PublishTimeout o t d ready).received =
        (((subscribers o t).enum).filter (fun p => ready p.1)).map (fun p => (p.2, d)) ∧
      (∀ e, subscribers (PublishTimeout o t d ready).outcome.state e = subscribers o e) ∧
      (PublishTimeout o t d ready).outcome.state.closed = o.closed := by
  have hloop : ∀ cl, cl = o.closed →
      publishTimeoutLoop cl ready d (subscribers o t) 0 [] [] =
        (none, subscribers o t,
          (((subscribers o t).enum).filter (fun p => ready p.1)).map (fun p => (p.2, d))) := by
    intro cl hcl
    subst hcl
    simpa [List.enum] using publishTimeoutLoop_open o.closed ready d (subscribers o t) 0 [] []
      hopen
  cases h : o.events t with
  | some l =>
    have hP : PublishTimeout o t d ready =
        { outcome := { panic := none, state := o }, tried := subscribers o t,
          received :=
            (((subscribers o t).enum).filter (fun p => ready p.1)).map (fun p => (p.2, d)) } := by
      simp only [PublishTimeout, h, hloop o.closed rfl]
    rw [hP]
    exact ⟨rfl, rfl, rfl, fun _ => rfl, rfl⟩
  | none =>
    have hP : PublishTimeout o t d ready =
        { outcome :=
            { panic := none,
              state := { o with
                events := fun e => if e = t then some [] else o.events e } },
          tried := subscribers o t,
          received :=
            (((subscribers o t).enum).filter (fun p => ready p.1)).map (fun p => (p.2, d)) } := by
      simp only [PublishTimeout, h, hloop o.closed rfl]
    rw [hP]
    refine ⟨rfl, rfl, rfl, fun e => ?_, rfl⟩
    by_cases he : e = t
    · subst he; simp [subscribers, h]
    · simp [subscribers, he]

/-- Three subscribers of "commits"; the second does not accept in time. -/
theorem publishTimeout_tries_each_once_witness :
    (PublishTimeout observerThree "commits" "d" (fun i => i != 1)).outcome.panic = none ∧
      (PublishTimeout observerThree "commits" "d" (fun i => i != 1)).tried = [3, 7, 5] ∧
      (PublishTimeout observerThree "commits" "d" (fun i => i != 1)).received =
        [(3, "d"), (5, "d")] :=
  have h := publishTimeout_tries_each_once observerThree "commits" "d" (fun i => i != 1)
    (by decide)
  ⟨h.1, by rw [h.2.1]; decide, by rw [h.2.2.1]; decide⟩

/-! ## Lemmas on the retry loop -/

theorem mem_dropLast_cons {α : Type} (x a : α) (l : List α) (h : a ∈ (x :: l).dropLast) :
    a = x ∨ a ∈ l.dropLast := by
  cases l with
  | nil => simp at h
  | cons y ys =>
    simp only [List.dropLast_cons₂, List.mem_cons] at h
    exact h

theorem callLoop_attempts (w : HttpWorld) (m : ExternalManager) (operation method : String)
    (body : Option String) (wantResult : Bool) (retries : Nat) (err : Option String)
    (attempts : List Attempt) :
    ∃ ext, (callLoop w m operation method body wantResult retries err attempts).attempts
        = attempts ++ ext ∧ ext.length ≤ retries ∧
      (∀ a ∈ ext.dropLast, a.retryable = true) ∧
      ((∀ a ∈ ext, a.retryable = true) →
        (callLoop w m operation method body wantResult retries err attempts).err = err) := by
  induction retries generalizing attempts with
  | zero => exact ⟨[], by simp [callLoop], by simp, by simp, fun _ => by simp [callLoop]⟩
  | succ n ih =>
    have hret : ∀ (e : Option String) (x : Attempt), x.retryable = false →
        ∃ ext, (CallResult.mk e (attempts ++ [x])).attempts = attempts ++ ext ∧
          ext.length ≤ n + 1 ∧ (∀ a ∈ ext.dropLast, a.retryable = true) ∧
          ((∀ a ∈ ext, a.retryable = true) → (CallResult.mk e (attempts ++ [x])).err = err) := by
      intro e x hx
      refine ⟨[x], rfl, by simp, by simp, fun h => ?_⟩
      have := h x (List.mem_singleton_self x)
      rw [hx] at this
      exact absurd this (by decide)
    have hcont : ∀ x : Attempt, x.retryable = true →
        ∃ ext, (callLoop w m operation method body wantResult n err (attempts ++ [x])).attempts
            = attempts ++ ext ∧ ext.length ≤ n + 1 ∧
          (∀ a ∈ ext.dropLast, a.retryable = true) ∧
          ((∀ a ∈ ext, a.retryable = true) →
            (callLoop w m operation method body wantResult n err (attempts ++ [x])).err
              = err) := by
      intro x hx
      obtain ⟨ext, h1, h2, h3, h4⟩ := ih (attempts ++ [x])
      refine ⟨x :: ext, by simp [h1], by simp; omega, ?_, fun h => ?_⟩
      · intro a ha
        rcases mem_dropLast_cons x a ext ha with rfl | ha
        · exact hx
        · exact h3 a ha
      · exact h4 (fun a ha => h a (List.mem_cons_of_mem _ ha))
    unfold callLoop
    simp only []
    split
    · exact hret _ _ rfl
    · split
      · exact hret _ _ rfl
      · split
        · exact hcont _ rfl
        · split
          · split
            · split
              · exact hcont _ rfl
              · split
                · exact hcont _ rfl
                · exact hret _ _ rfl
            · exact hret _ _ rfl
          · split
            · exact hcont _ rfl
            · exact hret _ _ rfl

/-- When every iteration of `call` ended in a retry, the error returned is the untouched
function-level variable, that is nil. -/
theorem call_all_retried_returns_nil (w : HttpWorld) (m : ExternalManager)
    (operation method : String) (body : Option String) (wantResult : Bool)
    (h : ∀ a ∈ (call w m operation method body wantResult).attempts, a.retryable = true) :
    (call w m operation method body wantResult).err = none := by
  obtain ⟨ext, h1, _, _, h4⟩ := callLoop_attempts w m operation method body wantResult 60 none []
  apply h4
  intro a ha
  apply h
  unfold call
  rw [h1]
  simpa using ha

/-! ## Theorems: external user manager -/

/-- C15 does not hold on the code: when all 60 requests fail at the connection, a retryable
error each time, `call` returns nil, not the last error. The comment before the final
`return err` says the last error is kept, but the loop body only assigns variables named `err`
that it declares itself. -/
theorem call_returns_nil_when_retries_run_out :
    (call worldUnreachable exampleManager "authorize" "POST" (some "q") true).requests = 60 ∧
      (∀ a ∈ (call worldUnreachable exampleManager "authorize" "POST" (some "q") true).attempts,
        a = .doFailed "dial tcp: connection refused") ∧
      (call worldUnreachable exampleManager "authorize" "POST" (some "q") true).err = none := by
  decide

/-- C16: in an iteration that receives an HTTP response, status 200 or 201 with no result
requested makes `call` return nil, and any other status whose body can be read makes `call`
return the error "HTTP Error: <status> body: <quoted body>"; in both cases this iteration is
the last one. -/
theorem callLoop_response (w : HttpWorld) (m : ExternalManager) (operation method : String)
    (body : Option String) (wantResult : Bool) (retries : Nat) (err : Option String)
    (attempts : List Attempt) (resp : HttpResponse)
    (hbody : ∀ b, body = some b → ∃ enc, w.Marshal b = .ok enc)
    (hreq : ∀ reader, w.NewRequest method (m.url ++ "/" ++ operation) reader = none)
    (hdo : w.Do (attempts.filter Attempt.sentRequest).length = .ok resp) :
    ((resp.StatusCode = 200 ∨ resp.StatusCode = 201) → wantResult = false →
        callLoop w m operation method body wantResult (retries + 1) err attempts =
          { err := none, attempts := attempts ++ [.succeeded] }) ∧
      (¬ (resp.StatusCode = 200 ∨ resp.StatusCode = 201) → ∀ b, resp.ReadAll = .ok b →
        callLoop w m operation method body wantResult (retries + 1) err attempts =
          { err := some ("HTTP Error: " ++ toString resp.StatusCode ++ " body: " ++ w.quote b),
            attempts := attempts ++ [.httpError resp.StatusCode b] }) := by
  refine ⟨fun hst hwant => ?_, fun hst b hb => ?_⟩
  · cases body with
    | none => simp [callLoop, hreq, hdo, hst, hwant]
    | some b0 =>
      obtain ⟨enc, henc⟩ := hbody b0 rfl
      simp [callLoop, henc, hreq, hdo, hst, hwant]
  · cases body with
    | none => simp [callLoop, hreq, hdo, hst, hb]
    | some b0 =>
      obtain ⟨enc, henc⟩ := hbody b0 rfl
      simp [callLoop, henc, hreq, hdo, hst, hb]

/-- The second request is answered 403 "forbidden": the error is returned and no third request
is made, although 58 retries are left. -/
theorem callLoop_response_witness :
    callLoop worldForbidden exampleManager "authorize" "POST" (some "q") true 59 none
        [.doFailed "dial tcp: connection refused"] =
      { err := some ("HTTP Error: " ++ toString (403 : Int) ++ " body: " ++
          worldForbidden.quote "forbidden"),
        attempts := [.doFailed "dial tcp: connection refused"] ++ [.httpError 403 "forbidden"] } :=
  (callLoop_response worldForbidden exampleManager "authorize" "POST" (some "q") true 58 none
    [.doFailed "dial tcp: connection refused"] { StatusCode := 403, ReadAll := .ok "forbidden" }
    (fun b _ => ⟨b, rfl⟩) (fun _ => rfl) rfl).2 (by decide) "forbidden" rfl

/-- C17: `call` ends after at most 60 iterations, hence at most 60 HTTP requests, and every
iteration but the last one ended in a retryable failure: a further request is made only after
such a failure. -/
theorem call_at_most_sixty_requests (w : HttpWorld) (m : ExternalManager)
    (operation method : String) (body : Option String) (wantResult : Bool) :
    (call w m operation method body wantResult).requests ≤ 60 ∧
      (call w m operation method body wantResult).attempts.length ≤ 60 ∧
      (∀ a ∈ (call w m operation method body wantResult).attempts.dropLast,
        a.retryable = true) := by
  obtain ⟨ext, h1, h2, h3, _⟩ := callLoop_attempts w m operation method body wantResult 60 none []
  have hext : (call w m operation method body wantResult).attempts = ext := by
    unfold call
    rw [h1]
    simp
  refine ⟨?_, ?_, ?_⟩
  · unfold CallResult.requests
    rw [hext]
    exact le_trans (List.length_filter_le _ _) h2
  · rw [hext]; exact h2
  · rw [hext]; exact h3

/-! ## Theorems: request-scoped identity -/

/-- C18: the context made by `SetAuthenticationDetailsCtx(ctx, u, t)` for a non-nil `u` reads
back `u`, `u.Id` and `t`; `GetUserIDFromCtx(SetUserIDCtx(ctx, id))` is `id`; and on a context
carrying none of the three values the getters return "", nil and `AuthenticationTypeNone`. -/
theorem context_reads_back (ctx ctx0 : Context) (u : User) (t : AuthenticationType)
    (id : String)
    (hid : Value ctx0 authenticationUserIDContextKey = none)
    (hobj : Value ctx0 authenticationUserObjectContextKey = none)
    (htype : Value ctx0 authenticationPasswordAuthContextKey = none) :
    (∃ ctx1, SetAuthenticationDetailsCtx ctx (some u) t = .ok ctx1 ∧
        GetUserFromCtx ctx1 = .ok (some u) ∧ GetUserIDFromCtx ctx1 = .ok u.Id ∧
        GetAuthenticationType ⟨ctx1⟩ = .ok t) ∧
      GetUserIDFromCtx (SetUserIDCtx ctx id) = .ok id ∧
      GetUserIDFromCtx ctx0 = .ok "" ∧ GetUserFromCtx ctx0 = .ok none ∧
      GetAuthenticationType ⟨ctx0⟩ = .ok .AuthenticationTypeNone := by
  refine ⟨⟨_, rfl, ?_, ?_, ?_⟩, ?_, ?_, ?_, ?_⟩
  · simp [GetUserFromCtx, Value, WithValue, List.lookup, authenticationUserObjectContextKey,
      authenticationPasswordAuthContextKey]
  · simp [GetUserIDFromCtx, Value, WithValue, List.lookup, authenticationUserIDContextKey,
      authenticationUserObjectContextKey, authenticationPasswordAuthContextKey]
  · simp [GetAuthenticationType, Value, WithValue, List.lookup]
  · simp [GetUserIDFromCtx, SetUserIDCtx, Value, WithValue, List.lookup]
  · simp [GetUserIDFromCtx, hid]
  · simp [GetUserFromCtx, hobj]
  · simp [GetAuthenticationType, htype]

/-- The admin user set on the background context with API-key authentication. -/
theorem context_reads_back_witness :
    (∃ ctx1, SetAuthenticationDetailsCtx [] (some ⟨"u-1", "admin"⟩) .AuthenticationTypeAPIKey
          = .ok ctx1 ∧
        GetUserFromCtx ctx1 = .ok (some ⟨"u-1", "admin"⟩) ∧
        GetUserIDFromCtx ctx1 = .ok "u-1" ∧
        GetAuthenticationType ⟨ctx1⟩ = .ok .AuthenticationTypeAPIKey) ∧
      GetUserIDFromCtx (SetUserIDCtx [] "u-2") = .ok "u-2" ∧
      GetUserIDFromCtx [] = .ok "" ∧ GetUserFromCtx [] = .ok none ∧
      GetAuthenticationType ⟨[]⟩ = .ok .AuthenticationTypeNone :=
  context_reads_back [] [] ⟨"u-1", "admin"⟩ .AuthenticationTypeAPIKey "u-2" rfl rfl rfl

/-! ## Theorems: key-value wrapper -/

/-- C19: `EtcdKV.Get` looks up by id and by name. For a UUID reference the result is the direct
lookup `get(prefix, ref)`, of the key `<store prefix>/<prefix>/<ref>`, and the name index is
not consulted; for another reference that the index maps to `id` it is `get(prefix, id)`; and
when the index lookup fails it is `get(prefix, ref)`. -/
theorem Get_by_id_or_name (k : EtcdKV) (w : KvWorld) (pfx ref : String) :
    (w.IsUUID ref = true →
        (k.Get w pfx ref).node = w.clientGet (k.base ++ "/" ++ pfx ++ "/" ++ ref) ∧
          (k.Get w pfx ref).indexLookups = []) ∧
      (w.IsUUID ref = false → ∀ id, w.idxFindID pfx ref = .ok id →
        (k.Get w pfx ref).node = w.clientGet (k.base ++ "/" ++ pfx ++ "/" ++ id)) ∧
      (w.IsUUID ref = false → ∀ e, w.idxFindID pfx ref = .error e →
        (k.Get w pfx ref).node = w.clientGet (k.base ++ "/" ++ pfx ++ "/" ++ ref)) := by
  refine ⟨fun h => ?_, fun h id hid => ?_, fun h e he => ?_⟩
  · simp [EtcdKV.Get, EtcdKV.get, h]
  · simp [EtcdKV.Get, EtcdKV.get, h, hid]
  · simp [EtcdKV.Get, EtcdKV.get, h, he]

/-- Looking "alice" up by name reaches the record stored under her id. -/
theorem Get_by_id_or_name_witness :
    (EtcdKV.Get ⟨"/dotmesh.io"⟩ kvExample "users" "alice").node =
      kvExample.clientGet
        ("/dotmesh.io" ++ "/" ++ "users" ++ "/" ++ "6a9bd0a5-0f1c-4b1e-9d3a-2f5c7e8b9a10") :=
  (Get_by_id_or_name ⟨"/dotmesh.io"⟩ kvExample "users" "alice").2.1 (by decide)
    "6a9bd0a5-0f1c-4b1e-9d3a-2f5c7e8b9a10" (by simp [kvExample])

/-! ## Lemmas on the mount symlink -/

theorem ensureDirectory_calls (w : MountWorld) (calls : List FsCall) (path : String) (perm : Nat) :
    (ensureDirectory w calls path perm).2 = calls ∨
      (ensureDirectory w calls path perm).2 = calls ++ [.MkdirAll path perm] := by
  unfold ensureDirectory
  cases w.Stat calls path <;> simp

theorem ensureDirectory_keeps (w : MountWorld) (calls : List FsCall) (path : String) (perm : Nat)
    (mp : String) (h : ∀ c ∈ calls, FsCall.replaces mp c = false) :
    ∀ c ∈ (ensureDirectory w calls path perm).2, FsCall.replaces mp c = false := by
  intro c hc
  rcases ensureDirectory_calls w calls path perm with h1 | h1
  · rw [h1] at hc; exact h c hc
  · rw [h1] at hc
    rcases List.mem_append.1 hc with hc | hc
    · exact h c hc
    · rw [List.mem_singleton.1 hc]; rfl

theorem newContainerMountSymlink_after_link (w : MountWorld) (name : VolumeName)
    (filesystemId subvolume : String) (calls1 calls2 calls3 : List FsCall)
    (hbase : ensureDirectory w [] w.CONTAINER_MOUNT_PREFIX 0o700 = (none, calls1))
    (hparent : ensureDirectory w calls1 (w.containerMntParent name) 0o700 = (none, calls2))
    (hlink : ensureSymlink w calls2 (w.containerMnt name) filesystemId = (none, calls3)) :
    (newContainerMountSymlink w name filesystemId subvolume).2 =
      (ensureDirectory w calls3 (w.containerMntSubvolume name subvolume) 0o777).2 := by
  unfold newContainerMountSymlink
  simp only [hbase, hparent, hlink]
  rcases h : ensureDirectory w calls3 (w.containerMntSubvolume name subvolume) 0o777
    with ⟨_ | e, c⟩ <;> rfl

/-! ## Theorems: container mount symlinks -/

/-- C20: once the mount prefix and the parent directory are in place, (a) a mount point that is
a symlink whose target exists is left as it is, whatever the target: no call removes or
re-creates it; (b) a mount point that is a symlink whose target does not exist is removed and
created again as a symlink to `mnt(filesystemId)`, and not touched after that; (c) a mount
point that exists and is not a symlink makes the function return an error without any further
changing call. -/
theorem symlink_kept_or_replaced (w : MountWorld) (name : VolumeName)
    (filesystemId subvolume : String) (calls1 calls2 : List FsCall)
    (hbase : ensureDirectory w [] w.CONTAINER_MOUNT_PREFIX 0o700 = (none, calls1))
    (hparent : ensureDirectory w calls1 (w.containerMntParent name) 0o700 = (none, calls2)) :
    ((∃ info, w.Lstat calls2 (w.containerMnt name) = .symlink info) →
        (w.Stat calls2 (w.containerMnt name) = .isDir ∨
          w.Stat calls2 (w.containerMnt name) = .isFile) →
        ∀ c ∈ (newContainerMountSymlink w name filesystemId subvolume).2,
          FsCall.replaces (w.containerMnt name) c = false) ∧
      ((∃ info, w.Lstat calls2 (w.containerMnt name) = .symlink info) →
        (∃ target, w.Readlink calls2 (w.containerMnt name) = .ok target) →
        (∃ e, w.Stat calls2 (w.containerMnt name) = .notExist e) →
        w.Remove calls2 (w.containerMnt name) = none →
        w.Symlink (calls2 ++ [.Remove (w.containerMnt name)]) (w.mnt filesystemId)
          (w.containerMnt name) = none →
        ∃ rest, (newContainerMountSymlink w name filesystemId subvolume).2 =
            calls2 ++ [.Remove (w.containerMnt name),
              .Symlink (w.mnt filesystemId) (w.containerMnt name)] ++ rest ∧
          ∀ c ∈ rest, FsCall.replaces (w.containerMnt name) c = false) ∧
      (∀ info, w.Lstat calls2 (w.containerMnt name) = .other info →
        newContainerMountSymlink w name filesystemId subvolume =
          (.error ("mountpoint " ++ w.containerMnt name ++
            " contains something other than a symlink: " ++ info), calls2) ∧
        ∀ c ∈ calls2, FsCall.replaces (w.containerMnt name) c = false) := by
  have h1 : ∀ c ∈ calls1, FsCall.replaces (w.containerMnt name) c = false := by
    have := ensureDirectory_keeps w [] w.CONTAINER_MOUNT_PREFIX 0o700 (w.containerMnt name)
      (by simp)
    rwa [hbase] at this
  have h2 : ∀ c ∈ calls2, FsCall.replaces (w.containerMnt name) c = false := by
    have := ensureDirectory_keeps w calls1 (w.containerMntParent name) 0o700
      (w.containerMnt name) h1
    rwa [hparent] at this
  refine ⟨?_, ?_, ?_⟩
  · rintro ⟨info, hl⟩ hstat
    cases hr : w.Readlink calls2 (w.containerMnt name) with
    | error e =>
      have hres : newContainerMountSymlink w name filesystemId subvolume = (.error e, calls2) := by
        simp [newContainerMountSymlink, hbase, hparent, ensureSymlink, hl, hr]
      rw [hres]; exact h2
    | ok target =>
      have hlink : ensureSymlink w calls2 (w.containerMnt name) filesystemId = (none, calls2) := by
        rcases hstat with hs | hs <;> simp [ensureSymlink, hl, hr, hs]
      rw [newContainerMountSymlink_after_link w name filesystemId subvolume calls1 calls2 calls2
        hbase hparent hlink]
      exact ensureDirectory_keeps w calls2 _ _ _ h2
  · rintro ⟨info, hl⟩ ⟨target, hr⟩ ⟨e, hs⟩ hrm hsym
    have hlink : ensureSymlink w calls2 (w.containerMnt name) filesystemId =
        (none, calls2 ++ [.Remove (w.containerMnt name),
          .Symlink (w.mnt filesystemId) (w.containerMnt name)]) := by
      simp [ensureSymlink, hl, hr, hs, hrm, hsym]
    rw [newContainerMountSymlink_after_link w name filesystemId subvolume calls1 calls2 _
      hbase hparent hlink]
    rcases ensureDirectory_calls w (calls2 ++ [.Remove (w.containerMnt name),
      .Symlink (w.mnt filesystemId) (w.containerMnt name)])
      (w.containerMntSubvolume name subvolume) 0o777 with h | h
    · exact ⟨[], by rw [h]; simp, by simp⟩
    · refine ⟨[.MkdirAll (w.containerMntSubvolume name subvolume) 0o777], by rw [h], ?_⟩
      intro c hc
      rw [List.mem_singleton.1 hc]; rfl
  · intro info hl
    refine ⟨?_, h2⟩
    simp [newContainerMountSymlink, hbase, hparent, ensureSymlink, hl]

/-- The mount of `admin/db` points at a deleted filesystem: the link is removed and created
again towards the new filesystem. -/
theorem symlink_kept_or_replaced_witness :
    ∃ rest, (newContainerMountSymlink (mountWorldOn diskDangling) ⟨"admin", "db"⟩ "new-fs"
          "__default__").2 =
        [] ++ [.Remove "/var/dotmesh/admin/db",
          .Symlink "/var/lib/dotmesh/mnt/dmfs/new-fs" "/var/dotmesh/admin/db"] ++ rest ∧
      ∀ c ∈ rest, FsCall.replaces "/var/dotmesh/admin/db" c = false :=
  (symlink_kept_or_replaced (mountWorldOn diskDangling) ⟨"admin", "db"⟩ "new-fs" "__default__"
    [] [] (by decide) (by decide)).2.1 ⟨"Lrwxrwxrwx", by decide⟩
    ⟨"/var/lib/dotmesh/mnt/dmfs/old-fs", rfl⟩ ⟨"no such file or directory", by decide⟩ rfl rfl

/-! ## Lemmas on sequences of observer calls -/

theorem subscribers_Subscribe (o : ObserverState) (e t : String) (ch : Chan) :
    subscribers (Subscribe o e ch) t =
      if t = e then subscribers o e ++ [ch] else subscribers o t := by
  by_cases h : t = e
  · subst h; simp [Subscribe, subscribers]
  · simp [Subscribe, subscribers, h]

theorem inv_Subscribe (used : List Chan) (o : ObserverState) (e : String) (ch : Chan)
    (hinv : ObserverInv used o) (hfresh : ch ∉ used) :
    ObserverInv (ch :: used) (Subscribe o e ch) := by
  obtain ⟨h1, h2, h3, h4⟩ := hinv
  have hopen : o.closed ch = false := by
    cases hc : o.closed ch with
    | false => rfl
    | true => exact absurd (h1 ch hc) hfresh
  have hnot : ∀ t, ch ∉ subscribers o t := fun t hm => hfresh (h2 t ch hm).1
  refine ⟨?_, ?_, ?_, ?_⟩
  · intro c hc
    exact List.mem_cons_of_mem _ (h1 c hc)
  · intro t c hm
    rw [subscribers_Subscribe] at hm
    by_cases ht : t = e
    · rw [if_pos ht] at hm
      rcases List.mem_append.1 hm with hm | hm
      · exact ⟨List.mem_cons_of_mem _ (h2 e c hm).1, (h2 e c hm).2⟩
      · rw [List.mem_singleton.1 hm]
        exact ⟨List.mem_cons_self _ _, hopen⟩
    · rw [if_neg ht] at hm
      exact ⟨List.mem_cons_of_mem _ (h2 t c hm).1, (h2 t c hm).2⟩
  · intro t
    rw [subscribers_Subscribe]
    by_cases ht : t = e
    · rw [if_pos ht]
      exact List.Nodup.append (h3 e) (List.nodup_singleton ch)
        (by intro x hx hx2; rw [List.mem_singleton.1 hx2] at hx; exact hnot e hx)
    · rw [if_neg ht]; exact h3 t
  · intro t t2 c hm hm2
    rw [subscribers_Subscribe] at hm hm2
    by_cases ht : t = e <;> by_cases ht2 : t2 = e
    · rw [ht, ht2]
    · rw [if_pos ht] at hm
      rw [if_neg ht2] at hm2
      rcases List.mem_append.1 hm with hm | hm
      · rw [ht]; exact h4 e t2 c hm hm2
      · rw [List.mem_singleton.1 hm] at hm2; exact absurd hm2 (hnot t2)
    · rw [if_neg ht] at hm
      rw [if_pos ht2] at hm2
      rcases List.mem_append.1 hm2 with hm2 | hm2
      · rw [ht2]; exact h4 t e c hm hm2
      · rw [List.mem_singleton.1 hm2] at hm; exact absurd hm (hnot t)
    · rw [if_neg ht] at hm
      rw [if_neg ht2] at hm2
      exact h4 t t2 c hm hm2

theorem Unsubscribe_of_once (o : ObserverState) (t : String) (c : Chan)
    (honce : (subscribers o t).count c ≤ 1)
    (hmade : c ∈ subscribers o t → c ≠ nilChan)
    (hopen : c ∈ subscribers o t → o.closed c = false) :
    Unsubscribe o t c =
      { panic := none,
        state := { o with
          events := fun e =>
            if e = t then some ((subscribers o t).filter (fun x => x ≠ c)) else o.events e
          closed :=
            if c ∈ subscribers o t then (fun x => if x = c then true else o.closed x)
            else o.closed } } := by
  have hloop := unsubscribeLoop_once c (subscribers o t) [] o.closed honce hmade hopen
  simp only [List.nil_append] at hloop
  simp only [Unsubscribe, hloop]

theorem inv_Unsubscribe (used : List Chan) (o : ObserverState) (e : String) (ch : Chan)
    (hinv : ObserverInv used o) (hmade : ch ∈ subscribers o e → ch ≠ nilChan) :
    (Unsubscribe o e ch).panic = none ∧ ObserverInv used (Unsubscribe o e ch).state ∧
      (∀ t c, c ∈ subscribers (Unsubscribe o e ch).state t → c ∈ subscribers o t) := by
  obtain ⟨h1, h2, h3, h4⟩ := hinv
  have hU := Unsubscribe_of_once o e ch (List.nodup_iff_count_le_one.1 (h3 e) ch) hmade
    (fun hm => (h2 e ch hm).2)
  rw [hU]
  have hsub : ∀ t, subscribers
      { o with
        events := fun x =>
          if x = e then some ((subscribers o e).filter (fun x => x ≠ ch)) else o.events x
        closed :=
          if ch ∈ subscribers o e then (fun x => if x = ch then true else o.closed x)
          else o.closed } t =
        if t = e then (subscribers o e).filter (fun x => x ≠ ch) else subscribers o t := by
    intro t
    by_cases ht : t = e
    · subst ht; simp [subscribers]
    · simp [subscribers, ht]
  have hold : ∀ t c, c ∈ (if t = e then (subscribers o e).filter (fun x => x ≠ ch)
      else subscribers o t) → c ∈ subscribers o t ∧ (t = e → c ≠ ch) := by
    intro t c hmem
    by_cases ht : t = e
    · rw [if_pos ht] at hmem
      have := List.mem_filter.1 hmem
      exact ⟨ht ▸ this.1, fun _ => by simpa using this.2⟩
    · rw [if_neg ht] at hmem
      exact ⟨hmem, fun h => absurd h ht⟩
  refine ⟨rfl, ⟨?_, ?_, ?_, ?_⟩, ?_⟩
  · intro c hc
    by_cases hm : ch ∈ subscribers o e
    · simp only [hm, if_true] at hc
      by_cases hcc : c = ch
      · rw [hcc]; exact (h2 e ch hm).1
      · simp only [hcc, if_false] at hc; exact h1 c hc
    · simp only [hm, if_false] at hc; exact h1 c hc
  · intro t c hmem
    rw [hsub] at hmem
    have hc := hold t c hmem
    refine ⟨(h2 t c hc.1).1, ?_⟩
    by_cases hm : ch ∈ subscribers o e
    · simp only [hm, if_true]
      by_cases hcc : c = ch
      · have hte : t = e := h4 t e c hc.1 (hcc ▸ hm)
        exact absurd hcc (hc.2 hte)
      · simp only [hcc, if_false]; exact (h2 t c hc.1).2
    · simp only [hm, if_false]; exact (h2 t c hc.1).2
  · intro t
    rw [hsub]
    by_cases ht : t = e
    · rw [if_pos ht]; exact List.Nodup.filter _ (h3 e)
    · rw [if_neg ht]; exact h3 t
  · intro t t2 c hm hm2
    rw [hsub] at hm hm2
    exact h4 t t2 c (hold t c hm).1 (hold t2 c hm2).1
  · intro t c hmem
    rw [hsub] at hmem
    exact (hold t c hmem).1

theorem unsubscribeLoop_nil_panics (l acc : List Chan) (closed : Chan → Bool)
    (h : nilChan ∈ l) : (unsubscribeLoop nilChan l acc closed).1 ≠ none := by
  induction l generalizing acc with
  | nil => exact absurd h (List.not_mem_nil _)
  | cons x xs ih =>
    by_cases hx : x = nilChan
    · simp [unsubscribeLoop, hx]
    · have hxs : nilChan ∈ xs := by
        rcases List.mem_cons.1 h with h | h
        · exact absurd h.symm hx
        · exact h
      simp only [unsubscribeLoop, ne_eq, hx, not_false_eq_true, if_true]
      exact ih _ hxs

theorem Unsubscribe_nil_panics (o : ObserverState) (e : String)
    (h : nilChan ∈ subscribers o e) : (Unsubscribe o e nilChan).panic ≠ none := by
  have hloop := unsubscribeLoop_nil_panics (subscribers o e) [] o.closed h
  unfold Unsubscribe
  rcases hl : unsubscribeLoop nilChan (subscribers o e) [] o.closed with ⟨_ | msg, arr, cl⟩
  · rw [hl] at hloop; exact absurd rfl hloop
  · simp [hl]

theorem closeAllLoop_open (l : List Chan) (closed : Chan → Bool) (hnodup : l.Nodup)
    (hmade : nilChan ∉ l) (hopen : ∀ c ∈ l, closed c = false) :
    closeAllLoop l closed = (none, fun c => if c ∈ l then true else closed c) := by
  induction l generalizing closed with
  | nil => simp [closeAllLoop]
  | cons x xs ih =>
    have hx : closed x = false := hopen x (List.mem_cons_self _ _)
    have hxn : x ≠ nilChan := fun e => hmade (by simp [e])
    have hmade2 : nilChan ∉ xs := fun h => hmade (List.mem_cons_of_mem _ h)
    have hnx : x ∉ xs := (List.nodup_cons.1 hnodup).1
    have hxs : ∀ c ∈ xs, (fun c => if c = x then true else closed c) c = false := by
      intro c hc
      have hcx : c ≠ x := fun e => hnx (e ▸ hc)
      simp [hcx, hopen c (List.mem_cons_of_mem _ hc)]
    rw [closeAllLoop, if_neg hxn, if_neg (by simp [hx]),
      ih _ (List.nodup_cons.1 hnodup).2 hmade2 hxs]
    congr 1
    funext c
    by_cases hc : c ∈ xs
    · simp [hc]
    · by_cases hcx : c = x
      · simp [hcx]
      · simp [hc, hcx]

theorem closeAllLoop_nil_panics (l : List Chan) (closed : Chan → Bool)
    (h : nilChan ∈ l) : (closeAllLoop l closed).1 ≠ none := by
  induction l generalizing closed with
  | nil => exact absurd h (List.not_mem_nil _)
  | cons x xs ih =>
    by_cases hx : x = nilChan
    · simp [closeAllLoop, hx]
    · have hxs : nilChan ∈ xs := by
        rcases List.mem_cons.1 h with h | h
        · exact absurd h.symm hx
        · exact h
      by_cases hc : closed x = true
      · simp [closeAllLoop, hx, hc]
      · simp only [closeAllLoop, hx, hc, if_false]
        exact ih _ hxs

theorem UnsubscribeAll_nil_panics (o : ObserverState) (e : String)
    (h : nilChan ∈ subscribers o e) : (UnsubscribeAll o e).panic ≠ none := by
  have hloop := closeAllLoop_nil_panics (subscribers o e) o.closed h
  unfold UnsubscribeAll
  rcases hl : closeAllLoop (subscribers o e) o.closed with ⟨_ | msg, cl⟩
  · rw [hl] at hloop; exact absurd rfl hloop
  · simp [hl]

theorem inv_UnsubscribeAll (used : List Chan) (o : ObserverState) (e : String)
    (hinv : ObserverInv used o) (hmade : nilChan ∉ subscribers o e) :
    (UnsubscribeAll o e).panic = none ∧ ObserverInv used (UnsubscribeAll o e).state ∧
      (∀ t c, c ∈ subscribers (UnsubscribeAll o e).state t → c ∈ subscribers o t) := by
  obtain ⟨h1, h2, h3, h4⟩ := hinv
  have hloop := closeAllLoop_open (subscribers o e) o.closed (h3 e) hmade
    (fun c hc => (h2 e c hc).2)
  have hU : UnsubscribeAll o e =
      { panic := none,
        state := { o with
          events := fun x => if x = e then none else o.events x
          closed := fun c => if c ∈ subscribers o e then true else o.closed c } } := by
    simp only [UnsubscribeAll, hloop]
  rw [hU]
  have hsub : ∀ t, subscribers
      { o with
        events := fun x => if x = e then none else o.events x
        closed := fun c => if c ∈ subscribers o e then true else o.closed c } t =
        if t = e then [] else subscribers o t := by
    intro t
    by_cases ht : t = e
    · subst ht; simp [subscribers]
    · simp [subscribers, ht]
  refine ⟨rfl, ⟨?_, ?_, ?_, ?_⟩, ?_⟩
  · intro c hc
    by_cases hm : c ∈ subscribers o e
    · exact (h2 e c hm).1
    · simp only [hm, if_false] at hc; exact h1 c hc
  · intro t c hmem
    rw [hsub] at hmem
    by_cases ht : t = e
    · rw [if_pos ht] at hmem; exact absurd hmem (List.not_mem_nil c)
    · rw [if_neg ht] at hmem
      refine ⟨(h2 t c hmem).1, ?_⟩
      have hm : c ∉ subscribers o e := fun hm => ht (h4 t e c hmem hm)
      simp only [hm, if_false]
      exact (h2 t c hmem).2
  · intro t
    rw [hsub]
    by_cases ht : t = e
    · rw [if_pos ht]; exact List.nodup_nil
    · rw [if_neg ht]; exact h3 t
  · intro t t2 c hm hm2
    rw [hsub] at hm hm2
    by_cases ht : t = e
    · rw [if_pos ht] at hm; exact absurd hm (List.not_mem_nil c)
    · by_cases ht2 : t2 = e
      · rw [if_pos ht2] at hm2; exact absurd hm2 (List.not_mem_nil c)
      · rw [if_neg ht] at hm
        rw [if_neg ht2] at hm2
        exact h4 t t2 c hm hm2
  · intro t c hmem
    rw [hsub] at hmem
    by_cases ht : t = e
    · rw [if_pos ht] at hmem; exact absurd hmem (List.not_mem_nil c)
    · rw [if_neg ht] at hmem; exact hmem

theorem inv_of_same_lists (used : List Chan) (o o1 : ObserverState)
    (hsub : ∀ t, subscribers o1 t = subscribers o t) (hclosed : o1.closed = o.closed)
    (hinv : ObserverInv used o) : ObserverInv used o1 := by
  obtain ⟨h1, h2, h3, h4⟩ := hinv
  refine ⟨?_, ?_, ?_, ?_⟩
  · intro c hc; rw [hclosed] at hc; exact h1 c hc
  · intro t c hm; rw [hsub] at hm; rw [hclosed]; exact h2 t c hm
  · intro t; rw [hsub]; exact h3 t
  · intro t t2 c hm hm2; rw [hsub] at hm hm2; exact h4 t t2 c hm hm2

theorem subscribers_store_empty (o : ObserverState) (e t : String) :
    subscribers
        (match o.events e with
          | some _ => o
          | none => { o with events := fun x => if x = e then some [] else o.events x }) t =
      subscribers o t := by
  cases h : o.events e with
  | some l => rfl
  | none =>
    by_cases ht : t = e
    · subst ht; simp [subscribers, h]
    · simp [subscribers, ht]

theorem closed_store_empty (o : ObserverState) (e : String) :
    (match o.events e with
        | some _ => o
        | none => { o with events := fun x => if x = e then some [] else o.events x }).closed =
      o.closed := by
  cases h : o.events e <;> rfl

theorem inv_Publish (used : List Chan) (o : ObserverState) (e : String) (d : Data)
    (hinv : ObserverInv used o) :
    (Publish o e d).outcome.panic = none ∧ ObserverInv used (Publish o e d).outcome.state :=
  ⟨rfl, inv_of_same_lists used o _ (subscribers_store_empty o e) (closed_store_empty o e) hinv⟩

theorem PublishTimeout_of_open (o : ObserverState) (e : String) (d : Data) (ready : Nat → Bool)
    (hopen : ∀ c ∈ subscribers o e, o.closed c = false) :
    (PublishTimeout o e d ready).outcome.panic = none ∧
      (∀ t, subscribers (PublishTimeout o e d ready).outcome.state t = subscribers o t) ∧
      (PublishTimeout o e d ready).outcome.state.closed = o.closed := by
  obtain ⟨tr, rc, hloop⟩ : ∃ tr rc,
      publishTimeoutLoop o.closed ready d (subscribers o e) 0 [] [] = (none, tr, rc) :=
    ⟨_, _, publishTimeoutLoop_open o.closed ready d (subscribers o e) 0 [] [] hopen⟩
  cases h : o.events e with
  | some l =>
    have hP : PublishTimeout o e d ready =
        { outcome := { panic := none, state := o }, tried := tr, received := rc } := by
      simp only [PublishTimeout, h, hloop]
    rw [hP]
    exact ⟨rfl, fun _ => rfl, rfl⟩
  | none =>
    have hP : PublishTimeout o e d ready =
        { outcome :=
            { panic := none,
              state := { o with
                events := fun x => if x = e then some [] else o.events x } },
          tried := tr, received := rc } := by
      simp only [PublishTimeout, h, hloop]
    rw [hP]
    refine ⟨rfl, fun t => ?_, rfl⟩
    by_cases ht : t = e
    · subst ht; simp [subscribers, h]
    · simp [subscribers, ht]

theorem inv_PublishTimeout (used : List Chan) (o : ObserverState) (e : String) (d : Data)
    (ready : Nat → Bool) (hinv : ObserverInv used o) :
    (PublishTimeout o e d ready).outcome.panic = none ∧
      ObserverInv used (PublishTimeout o e d ready).outcome.state := by
  obtain ⟨hp, hsub, hcl⟩ := PublishTimeout_of_open o e d ready (fun c hc => (hinv.2.1 e c hc).2)
  exact ⟨hp, inv_of_same_lists used o _ hsub hcl hinv⟩

theorem runCalls_of_ok (o o1 : ObserverState) (c : ObserverCall) (cs : List ObserverCall)
    (h : applyCall o c = ⟨none, o1⟩) : runCalls o (c :: cs) = runCalls o1 cs := by
  simp [runCalls, h]

theorem outcome_eta (r : Outcome) (h : r.panic = none) : r = ⟨none, r.state⟩ := by
  cases r with
  | mk p s => simp at h; simp [h]

theorem runCalls_of_panic (o : ObserverState) (c : ObserverCall) (cs : List ObserverCall)
    (h : (applyCall o c).panic ≠ none) : (runCalls o (c :: cs)).panic ≠ none := by
  rcases hc : applyCall o c with ⟨_ | msg, o1⟩
  · rw [hc] at h; exact absurd rfl h
  · simp [runCalls, hc]

/-- Along a sequence of calls that subscribes no channel twice: when no call panicked the
state reached satisfies the invariant, and when the nil channel is neither on a list nor
subscribed, no call panics. -/
theorem runCalls_inv (cs : List ObserverCall) :
    ∀ (used : List Chan) (o : ObserverState), ObserverInv used o →
      (subscribedChans cs).Nodup → (∀ c ∈ subscribedChans cs, c ∉ used) →
      ((runCalls o cs).panic = none → ∃ used1, ObserverInv used1 (runCalls o cs).state) ∧
        ((∀ t, nilChan ∉ subscribers o t) → nilChan ∉ subscribedChans cs →
          (runCalls o cs).panic = none) := by
  induction cs with
  | nil => intro used o hinv _ _; exact ⟨fun _ => ⟨used, hinv⟩, fun _ _ => rfl⟩
  | cons call rest ih =>
    intro used o hinv hnodup hfresh
    cases call with
    | Subscribe e ch =>
      simp only [subscribedChans, List.nodup_cons] at hnodup
      have hch : ch ∉ used := hfresh ch (by simp [subscribedChans])
      rw [runCalls_of_ok o (Subscribe o e ch) (.Subscribe e ch) rest rfl]
      have hfresh2 : ∀ c ∈ subscribedChans rest, c ∉ ch :: used := by
        intro c hc hmem
        rcases List.mem_cons.1 hmem with h | h
        · exact hnodup.1 (h ▸ hc)
        · exact hfresh c (by simp [subscribedChans, hc]) h
      obtain ⟨ha, hb⟩ := ih (ch :: used) _ (inv_Subscribe used o e ch hinv hch) hnodup.2 hfresh2
      refine ⟨ha, fun hnil hsubs => hb ?_ ?_⟩
      · intro t hmem
        rw [subscribers_Subscribe] at hmem
        by_cases ht : t = e
        · rw [if_pos ht] at hmem
          rcases List.mem_append.1 hmem with hm | hm
          · exact hnil e hm
          · exact hsubs (by rw [List.mem_singleton.1 hm]; simp [subscribedChans])
        · rw [if_neg ht] at hmem; exact hnil t hmem
      · intro hm; exact hsubs (by simp [subscribedChans, hm])
    | Unsubscribe e ch =>
      by_cases hbad : ch ∈ subscribers o e ∧ ch = nilChan
      · have hp : (applyCall o (.Unsubscribe e ch)).panic ≠ none := by
          rw [hbad.2]; exact Unsubscribe_nil_panics o e (hbad.2 ▸ hbad.1)
        refine ⟨fun h => absurd h (runCalls_of_panic o _ rest hp), fun hnil _ => ?_⟩
        exact absurd (hbad.2 ▸ hbad.1) (hnil e)
      · have hmade : ch ∈ subscribers o e → ch ≠ nilChan := fun hm hn => hbad ⟨hm, hn⟩
        obtain ⟨hp, hi, hsubset⟩ := inv_Unsubscribe used o e ch hinv hmade
        rw [runCalls_of_ok o (Unsubscribe o e ch).state (.Unsubscribe e ch) rest
          (outcome_eta _ hp)]
        obtain ⟨ha, hb⟩ := ih used _ hi hnodup hfresh
        exact ⟨ha, fun hnil hsubs => hb (fun t hm => hnil t (hsubset t _ hm)) hsubs⟩
    | UnsubscribeAll e =>
      by_cases hbad : nilChan ∈ subscribers o e
      · have hp : (applyCall o (.UnsubscribeAll e)).panic ≠ none :=
          UnsubscribeAll_nil_panics o e hbad
        exact ⟨fun h => absurd h (runCalls_of_panic o _ rest hp),
          fun hnil _ => absurd hbad (hnil e)⟩
      · obtain ⟨hp, hi, hsubset⟩ := inv_UnsubscribeAll used o e hinv hbad
        rw [runCalls_of_ok o (UnsubscribeAll o e).state (.UnsubscribeAll e) rest
          (outcome_eta _ hp)]
        obtain ⟨ha, hb⟩ := ih used _ hi hnodup hfresh
        exact ⟨ha, fun hnil hsubs => hb (fun t hm => hnil t (hsubset t _ hm)) hsubs⟩
    | Publish e d =>
      obtain ⟨hp, hi⟩ := inv_Publish used o e d hinv
      rw [runCalls_of_ok o (Publish o e d).outcome.state (.Publish e d) rest (outcome_eta _ hp)]
      obtain ⟨ha, hb⟩ := ih used _ hi hnodup hfresh
      refine ⟨ha, fun hnil hsubs => hb (fun t hm => hnil t ?_) hsubs⟩
      have := subscribers_store_empty o e t
      simp only [Publish] at hm
      rw [this] at hm
      exact hm
    | PublishTimeout e d ready =>
      obtain ⟨hp, hi⟩ := inv_PublishTimeout used o e d ready hinv
      obtain ⟨_, hsame, _⟩ := PublishTimeout_of_open o e d ready
        (fun c hc => (hinv.2.1 e c hc).2)
      rw [runCalls_of_ok o (PublishTimeout o e d ready).outcome.state
        (.PublishTimeout e d ready) rest (outcome_eta _ hp)]
      obtain ⟨ha, hb⟩ := ih used _ hi hnodup hfresh
      exact ⟨ha, fun hnil hsubs => hb (fun t hm => hnil t (hsame t ▸ hm)) hsubs⟩

theorem inv_NewObserver (name : String) : ObserverInv [] (NewObserver name) := by
  refine ⟨?_, ?_, ?_, ?_⟩
  · intro c hc; simp [NewObserver] at hc
  · intro t c hm; simp [NewObserver, subscribers] at hm
  · intro t; simp [NewObserver, subscribers]
  · intro t t2 c hm; simp [NewObserver, subscribers] at hm

/-! ## Theorems: sequences of observer calls -/

/-- C21, as stated, fails: after channel 7 was subscribed twice to one topic, `Unsubscribe` of
that channel and `UnsubscribeAll` of that topic both close it a second time and panic; so does
`UnsubscribeAll` of "pushes" after channel 3, subscribed to two topics, was unsubscribed from
"commits"; and after the nil channel was subscribed once, `Unsubscribe` of it and
`UnsubscribeAll` of its topic panic on closing it. -/
theorem sequences_with_second_close_panic :
    (runCalls (NewObserver "fs") callsTwiceThenUnsubscribe).panic
        = some "close of closed channel" ∧
      (runCalls (NewObserver "fs") callsTwiceThenUnsubscribeAll).panic
        = some "close of closed channel" ∧
      (runCalls (NewObserver "fs") callsTwoTopics).panic = none ∧
      (runCalls (NewObserver "fs") (callsTwoTopics ++ [.UnsubscribeAll "pushes"])).panic
        = some "close of closed channel" ∧
      (runCalls (NewObserver "fs") callsNilThenUnsubscribe).panic
        = some "close of nil channel" ∧
      (runCalls (NewObserver "fs") callsNilThenUnsubscribeAll).panic
        = some "close of nil channel" := by
  decide

/-- C21, amended: in every sequence of `Subscribe`, `Unsubscribe` and `UnsubscribeAll` calls on
a new observer in which no channel is passed to `Subscribe` more than once and the nil channel
is never passed to it, `Unsubscribe` and `UnsubscribeAll` never close a channel that is already
closed, nor the nil channel: no call of the sequence panics. -/
theorem subscribed_once_never_panics (name : String) (cs : List ObserverCall)
    (_hkind : ∀ c ∈ cs, c.changesSubscribers = true)
    (honce : (subscribedChans cs).Nodup) (hmade : nilChan ∉ subscribedChans cs) :
    (runCalls (NewObserver name) cs).panic = none :=
  (runCalls_inv cs [] (NewObserver name) (inv_NewObserver name) honce
    (fun _ _ h => absurd h (List.not_mem_nil _))).2
    (fun t h => by simp [NewObserver, subscribers] at h) hmade

/-- Three channels subscribed once each and removed again, one of them twice. -/
theorem subscribed_once_never_panics_witness :
    (runCalls (NewObserver "fs") callsSubscribedOnce).panic = none :=
  subscribed_once_never_panics "fs" callsSubscribedOnce (by decide) (by decide) (by decide)

/-- C22, as stated, fails: channel 3 is subscribed to "commits" and "pushes" and unsubscribed
from "commits"; in the state reached, the list of "pushes" holds the closed channel 3, and
`PublishTimeout` on "pushes" sends on it and panics. -/
theorem reachable_list_holds_closed_channel :
    (runCalls (NewObserver "fs") callsTwoTopics).panic = none ∧
      subscribers (runCalls (NewObserver "fs") callsTwoTopics).state "pushes" = [3] ∧
      (runCalls (NewObserver "fs") callsTwoTopics).state.closed 3 = true ∧
      (PublishTimeout (runCalls (NewObserver "fs") callsTwoTopics).state "pushes" "d"
        (fun _ => true)).outcome.panic = some "send on closed channel" := by
  decide

/-- What a panicking `UnsubscribeAll` leaves behind: channel 5 was closed before the loop
reached the nil channel, and the `delete` is not reached, so the list still holds it. This is
why the invariant is stated for sequences whose calls all returned. -/
theorem panicked_unsubscribeAll_leaves_closed_channel :
    (runCalls (NewObserver "fs") callsNilAfterMade).panic = some "close of nil channel" ∧
      subscribers (runCalls (NewObserver "fs") callsNilAfterMade).state "commits"
        = [5, nilChan] ∧
      (runCalls (NewObserver "fs") callsNilAfterMade).state.closed 5 = true := by
  decide

/-- C22, amended: in every state reached from `NewObserver` through `Subscribe`,
`Unsubscribe`, `UnsubscribeAll`, `Publish` and `PublishTimeout` calls that all returned, in
which no channel is passed to `Subscribe` more than once, no list of a topic holds a closed
channel, and a further `PublishTimeout` does not send on a closed channel. When in addition the
nil channel is never passed to `Subscribe`, every call of the sequence returns: none panics. -/
theorem subscribed_once_lists_hold_open_channels (name : String) (cs : List ObserverCall)
    (honce : (subscribedChans cs).Nodup) :
    ((runCalls (NewObserver name) cs).panic = none →
        (∀ t, ∀ c ∈ subscribers (runCalls (NewObserver name) cs).state t,
          (runCalls (NewObserver name) cs).state.closed c = false) ∧
        (∀ t d ready,
          (PublishTimeout (runCalls (NewObserver name) cs).state t d ready).outcome.panic
            = none)) ∧
      (nilChan ∉ subscribedChans cs → (runCalls (NewObserver name) cs).panic = none) := by
  obtain ⟨ha, hb⟩ := runCalls_inv cs [] (NewObserver name) (inv_NewObserver name) honce
    (fun _ _ h => absurd h (List.not_mem_nil _))
  refine ⟨fun hp => ?_, fun hmade => hb (fun t h => by simp [NewObserver, subscribers] at h)
    hmade⟩
  obtain ⟨used, hinv⟩ := ha hp
  exact ⟨fun t c hc => (hinv.2.1 t c hc).2,
    fun t d ready => (inv_PublishTimeout used _ t d ready hinv).1⟩

/-- Subscriptions, removals and publishes with each channel subscribed once and none of them
nil: no call panics, and the lists reached hold open channels only. -/
theorem subscribed_once_lists_hold_open_channels_witness :
    (runCalls (NewObserver "fs") callsDisciplined).panic = none ∧
      (∀ t, ∀ c ∈ subscribers (runCalls (NewObserver "fs") callsDisciplined).state t,
        (runCalls (NewObserver "fs") callsDisciplined).state.closed c = false) ∧
      (∀ t d ready,
        (PublishTimeout (runCalls (NewObserver "fs") callsDisciplined).state t d
          ready).outcome.panic = none) :=
  have h := subscribed_once_lists_hold_open_channels "fs" callsDisciplined (by decide)
  ⟨h.2 (by decide), (h.1 (h.2 (by decide))).1, (h.1 (h.2 (by decide))).2⟩

/-! ## Theorems: the directory path of a read -/

/-- C23, as stated, fails: with an empty snapshot mount path `filepath.Join` ignores the empty
first element and `readDirectory` computes the relative path `__default__/x`, while the source
path of `readFile` is `/__default__/x`, which is its own cleaned form. -/
theorem join_ignores_empty_mount :
    sourcePath readNoMount = "/__default__/x" ∧
      Clean (sourcePath readNoMount) = "/__default__/x" ∧
      dirPath readNoMount = "__default__/x" ∧
      dirPath readNoMount ≠ Clean (sourcePath readNoMount) := by
  decide

/-- C23, amended: for every non-empty SnapshotMountPath and every Filename, the directory path
`readDirectory` computes with `filepath.Join` equals the lexically cleaned form of the source
path `readFile` computes, so the two paths have the same lexical normal form. -/
theorem dirPath_is_cleaned_sourcePath (file : OutputFile) (h : file.SnapshotMountPath ≠ "") :
    dirPath file = Clean (sourcePath file) ∧
      normalForm (dirPath file) = normalForm (sourcePath file) :=
  ⟨dirPath_eq_Clean file h, by rw [dirPath_eq_Clean file h, normalForm_Clean]⟩

/-- The file name `link/../d` under `/snap`: the joined path is `/snap/__default__/d`. -/
theorem dirPath_is_cleaned_sourcePath_witness :
    dirPath readViaLink = Clean (sourcePath readViaLink) ∧
      normalForm (dirPath readViaLink) = normalForm (sourcePath readViaLink) :=
  dirPath_is_cleaned_sourcePath readViaLink (by decide)

end Dotmesh
